import Mathlib

/-!
Shallow embedding of the SeersOrb synergy-graph core
(src/core/models/card.py, src/core/models/interaction.py,
src/core/graph/interaction_detector.py, src/core/graph/deck_graph.py,
src/core/graph/synergy_weighter.py, src/core/graph/tagging.py,
src/core/graph/analysis.py) and proofs about it.

Numeric card costs and interaction weights are Python floats in the source;
they are modelled as rationals (all constants involved are exact decimals and
the only operations used are `+`, `*`, `max`, `min` and comparisons, so the
rational semantics coincides with the intended real-number reading of the
code). Python dictionaries are modelled as association lists in insertion
order, Python sets as deduplicated lists (only membership and emptiness of
sets are ever observed by the code under study, plus iteration whose order
the claims do not depend on).
-/

/-! ### Character and string primitives (Python `str` operations) -/

/-- ASCII lower-casing of one character (all texts involved are ASCII apart
from the em dash, which Python `str.lower` leaves unchanged as well). -/
def lowerC (c : Char) : Char :=
  if 'A' ≤ c && c ≤ 'Z' then Char.ofNat (c.toNat + 32) else c

/-- Python `str.lower()`. -/
def lowerStr (s : String) : String :=
  String.mk (s.data.map lowerC)

/-- Python whitespace class `\s` (ASCII): space, tab, newline, CR, FF, VT. -/
def isWsC (c : Char) : Bool :=
  c = ' ' || c = '\t' || c = '\n' || c = '\r' || c = '\x0b' || c = '\x0c'

/-- Substring test on character lists: Python `needle in hay`. -/
def containsSub (hay needle : List Char) : Bool :=
  needle.isPrefixOf hay ||
    (match hay with
     | [] => false
     | _ :: t => containsSub t needle)

/-- Python `needle in hay` on strings. -/
def strContains (hay needle : String) : Bool :=
  containsSub hay.data needle.data

/-- Python `str.split(sep)` for a one-character separator. -/
def splitOnChar (c : Char) : List Char → List (List Char)
  | [] => [[]]
  | x :: xs =>
    let r := splitOnChar c xs
    if x = c then [] :: r
    else
      match r with
      | [] => [[x]]
      | h :: t => (x :: h) :: t

/-- Python `str.strip()` (whitespace at both ends). -/
def stripWs (s : List Char) : List Char :=
  ((s.dropWhile isWsC).reverse.dropWhile isWsC).reverse

/-- Helper for `wsSplit`: `cur` is the current token, reversed. -/
def wsSplitAux (cur : List Char) : List Char → List (List Char)
  | [] => if cur.isEmpty then [] else [cur.reverse]
  | x :: xs =>
    if isWsC x then
      if cur.isEmpty then wsSplitAux [] xs else cur.reverse :: wsSplitAux [] xs
    else wsSplitAux (x :: cur) xs

/-- Python `str.split()` with no argument: split on whitespace runs,
dropping empty pieces. -/
def wsSplit (s : List Char) : List (List Char) :=
  wsSplitAux [] s

/-! ### A matching engine for the fragment of Python `re` used by the code

The source uses `re.search` with patterns built from literal characters,
two-letter character classes such as `[Ss]`, the classes `[WUBRGC\d]`,
the wildcard `.*` (any characters except newline) and `\s+`. `RE`
represents one pattern element; `reMatch` decides an anchored match of a
pattern element list and `reSearch` decides `re.search` (match at any
position). Greediness does not affect match existence, so the
backtracking-complete semantics below is exactly `re.search ≠ None`. -/

inductive RE where
  | lit (c : Char)
  | cls (cs : List Char)
  | dotStar
  | wsPlus
deriving DecidableEq

/-- Fuelled anchored matcher. Every recursive call strictly decreases the
input length or keeps it and strictly shortens the pattern, and neither
ever grows, so any fuel of at least `xs.length + ps.length + 1` is enough
to reach an answer; the fuel-exhaustion branch is unreachable from
`reMatch` below. Structural recursion on the fuel keeps the function
kernel-reducible. -/
def reMatchF : Nat → List RE → List Char → Bool
  | 0, _, _ => false
  | _ + 1, [], _ => true
  | f + 1, RE.lit c :: ps, x :: xs => x = c && reMatchF f ps xs
  | _ + 1, RE.lit _ :: _, [] => false
  | f + 1, RE.cls cs :: ps, x :: xs => cs.contains x && reMatchF f ps xs
  | _ + 1, RE.cls _ :: _, [] => false
  | f + 1, RE.dotStar :: ps, [] => reMatchF f ps []
  | f + 1, RE.dotStar :: ps, x :: xs =>
    reMatchF f ps (x :: xs) || (!(x = '\n') && reMatchF f (RE.dotStar :: ps) xs)
  | f + 1, RE.wsPlus :: ps, x :: xs =>
    isWsC x && (reMatchF f ps xs || reMatchF f (RE.wsPlus :: ps) xs)
  | _ + 1, RE.wsPlus :: _, [] => false

/-- Anchored match of a pattern against a prefix of the input
(the rest of the input may be anything, as under `re.search`). -/
def reMatch (ps : List RE) (xs : List Char) : Bool :=
  reMatchF (xs.length + ps.length + 1) ps xs

/-- Python `re.search(pattern, s) is not None`. -/
def reSearch (ps : List RE) (s : List Char) : Bool :=
  reMatch ps s ||
    (match s with
     | [] => false
     | _ :: xs => reSearch ps xs)

/-- Literal characters of a pattern. -/
def lits (s : String) : List RE :=
  s.data.map RE.lit

/-- A two-letter character class such as `[Ss]`. -/
def pcl (a b : Char) (rest : List RE) : List RE :=
  RE.cls [a, b] :: rest

/-- Shorthand for `.*`. -/
def star : RE := RE.dotStar

/-- `re.search` on a `String`. -/
def search (p : List RE) (s : String) : Bool :=
  reSearch p s.data

/-- `any(re.search(p, s) for p in pats)`. -/
def anySearch (pats : List (List RE)) (s : String) : Bool :=
  pats.any (fun p => search p s)

/-! ### Card model (`src/core/models/card.py`)

Only the fields the synergy core reads are carried; the remaining fields of
the Python dataclass (power, toughness, images, legalities, prices, set
info) are never consulted by the detector, graph, weighter or analyzer. -/

structure Card where
  id : String
  name : String
  mana_cost : String := ""
  cmc : ℚ := 0
  colors : List String := []
  color_identity : List String := []
  type_line : String := ""
  oracle_text : String := ""
  keywords : List String := []
deriving DecidableEq

/-- `"Creature" in self.type_line`. -/
def Card.is_creature (c : Card) : Bool :=
  strContains c.type_line ("Creature")

/-- `"Land" in self.type_line`. -/
def Card.is_land (c : Card) : Bool :=
  strContains c.type_line ("Land")

/-- `Card.get_card_types`: the fixed type names present in the type line,
in the fixed order of the source. -/
def Card.get_card_types (c : Card) : List String :=
  ["Creature", "Land", "Instant", "Sorcery",
   "Artifact", "Enchantment", "Planeswalker"].filter
    (fun t => strContains c.type_line t)

/-- `Card.get_creature_types`: subtypes after the em dash of the type line
(`split("—")[1].strip().split()`), empty when there is no em dash. -/
def Card.get_creature_types (c : Card) : List String :=
  if strContains c.type_line ("—") then
    (wsSplit (stripWs ((splitOnChar '—' c.type_line.data).getD 1 []))).map
      String.mk
  else
    []

/-- `Card.produces_mana`: a land, or text matching `[Aa]dd\s+\{[WUBRGC\d]\}`. -/
def Card.produces_mana (c : Card) : Bool :=
  c.is_land ||
    search (pcl 'A' 'a' (lits ("dd") ++
      [RE.wsPlus, RE.lit '\x7b',
       RE.cls ['W', 'U', 'B', 'R', 'G', 'C',
               '0', '1', '2', '3', '4', '5', '6', '7', '8', '9'],
       RE.lit '\x7d'])) c.oracle_text

/-- `Card.has_etb_trigger` patterns. -/
def Card.has_etb_trigger (c : Card) : Bool :=
  anySearch
    [pcl 'W' 'w' (lits ("hen ") ++ [star] ++ lits (" enters the battlefield")),
     pcl 'W' 'w' (lits ("hen ") ++ [star] ++ lits (" enters")),
     pcl 'E' 'e' (lits ("nters the battlefield"))] c.oracle_text

/-- `Card.has_death_trigger` patterns. -/
def Card.has_death_trigger (c : Card) : Bool :=
  anySearch
    [pcl 'W' 'w' (lits ("hen ") ++ [star] ++ lits (" dies")),
     pcl 'W' 'w' (lits ("henever ") ++ [star] ++ lits (" dies")),
     pcl 'W' 'w' (lits ("hen ") ++ [star] ++ lits (" is put into a graveyard"))]
    c.oracle_text

/-- `Card.has_counter_synergy` patterns. -/
def Card.has_counter_synergy (c : Card) : Bool :=
  anySearch
    [lits ("+1/+1 counter"),
     pcl 'P' 'p' (lits ("roliferate")),
     pcl 'D' 'd' (lits ("ouble the number of ") ++ [star] ++ lits (" counters"))]
    c.oracle_text

/-- `str.capitalize()` restricted to upper-casing the first letter (the
arguments it is applied to are already lower case past the first letter). -/
def capStr (s : String) : String :=
  match s.data with
  | [] => s
  | c :: cs =>
    String.mk ((if 'a' ≤ c && c ≤ 'z' then Char.ofNat (c.toNat - 32) else c) :: cs)

/-- `Card.get_referenced_types`: the fixed list of type names that occur in
the lower-cased oracle text, capitalized. The Python function returns a set;
the list below enumerates it in the source's iteration order. -/
def Card.get_referenced_types (c : Card) : List String :=
  (["creature", "artifact", "enchantment", "land",
    "planeswalker", "instant", "sorcery"].filter
      (fun t => strContains (lowerStr c.oracle_text) t)).map capStr

/-! ### Interaction model (`src/core/models/interaction.py`) -/

inductive IType where
  | combos_with | enables | synergy | protects | buffs | tutors
  | mana_enables | draws_into | tribal | type_matters
  | sacrifice_fodder | sacrifice_outlet | counter_synergy
  | etb_chain | death_chain
deriving DecidableEq

/-- `InteractionType.value`: the string value of each enum member. -/
def IType.value : IType → String
  | .combos_with => "combos_with"
  | .enables => "enables"
  | .synergy => "synergy"
  | .protects => "protects"
  | .buffs => "buffs"
  | .tutors => "tutors"
  | .mana_enables => "mana_enables"
  | .draws_into => "draws_into"
  | .tribal => "tribal"
  | .type_matters => "type_matters"
  | .sacrifice_fodder => "sacrifice_fodder"
  | .sacrifice_outlet => "sacrifice_outlet"
  | .counter_synergy => "counter_synergy"
  | .etb_chain => "etb_chain"
  | .death_chain => "death_chain"

structure Interaction where
  source_id : String
  target_id : String
  interaction_type : IType
  weight : ℚ := 1
  description : Option String := none
  bidirectional : Bool := false
deriving DecidableEq

/-! ### Interaction detector (`src/core/graph/interaction_detector.py`)

Each `check_*` function mirrors the corresponding `_check_*` method: the
Python methods append interactions to a list under a sequence of `if`
statements, modelled here as concatenation of conditional blocks in the
same order. Loops over Python sets are modelled as loops over deduplicated
lists (the claims under study never depend on set iteration order). -/

def sacrifice_outlet_patterns : List (List RE) :=
  [pcl 'S' 's' (lits ("acrifice a creature")),
   pcl 'S' 's' (lits ("acrifice another")),
   pcl 'S' 's' (lits ("acrifice a permanent")),
   lits (", ") ++ pcl 'S' 's' (lits ("acrifice a"))]

def death_trigger_patterns : List (List RE) :=
  [pcl 'W' 'w' (lits ("henever ") ++ [star] ++ lits (" dies")),
   pcl 'W' 'w' (lits ("hen ") ++ [star] ++ lits (" dies")),
   pcl 'W' 'w' (lits ("henever another ") ++ [star] ++ lits (" dies")),
   pcl 'W' 'w' (lits ("henever a creature dies"))]

def blink_patterns : List (List RE) :=
  [pcl 'E' 'e' (lits ("xile ") ++ [star] ++ lits (" then return")),
   pcl 'E' 'e' (lits ("xile target ") ++ [star] ++ [RE.cls ['R', 'r']] ++
     lits ("eturn")),
   pcl 'F' 'f' (lits ("licker"))]

def counter_add_patterns : List (List RE) :=
  [pcl 'P' 'p' (lits ("ut ") ++ [star] ++ lits (" +1/+1 counter")),
   pcl 'E' 'e' (lits ("nters ") ++ [star] ++ lits (" with ") ++ [star] ++
     lits (" +1/+1 counter"))]

/-- `tutor_type_patterns` dictionary, in insertion order. -/
def tutor_type_patterns : List (String × List RE) :=
  [("creature", pcl 'S' 's' (lits ("earch ") ++ [star] ++ lits (" for a creature"))),
   ("artifact", pcl 'S' 's' (lits ("earch ") ++ [star] ++ lits (" for an artifact"))),
   ("enchantment",
     pcl 'S' 's' (lits ("earch ") ++ [star] ++ lits (" for an enchantment"))),
   ("land", pcl 'S' 's' (lits ("earch ") ++ [star] ++ lits (" for a ") ++ [star] ++
     lits (" land"))),
   ("instant", pcl 'S' 's' (lits ("earch ") ++ [star] ++ lits (" for an instant"))),
   ("sorcery", pcl 'S' 's' (lits ("earch ") ++ [star] ++ lits (" for a sorcery")))]

/-- `_check_sacrifice_synergy`. -/
def check_sacrifice_synergy (card1 card2 : Card) : List Interaction :=
  let c1_outlet := anySearch sacrifice_outlet_patterns card1.oracle_text
  let c2_death := anySearch death_trigger_patterns card2.oracle_text
  let c2_outlet := anySearch sacrifice_outlet_patterns card2.oracle_text
  let c1_death := anySearch death_trigger_patterns card1.oracle_text
  (if c1_outlet && c2_death then
    [{ source_id := card1.id, target_id := card2.id,
       interaction_type := .death_chain, weight := 0.8,
       description := some (card1.name ++
         " can sacrifice creatures to trigger " ++ card2.name) }]
   else []) ++
  (if c2_outlet && c1_death then
    [{ source_id := card2.id, target_id := card1.id,
       interaction_type := .death_chain, weight := 0.8,
       description := some (card2.name ++
         " can sacrifice creatures to trigger " ++ card1.name) }]
   else []) ++
  (if c1_outlet && card2.has_death_trigger && card2.is_creature then
    [{ source_id := card1.id, target_id := card2.id,
       interaction_type := .sacrifice_outlet, weight := 0.7,
       description := some (card1.name ++ " can sacrifice " ++ card2.name ++
         " for value") }]
   else []) ++
  (if c2_outlet && card1.has_death_trigger && card1.is_creature then
    [{ source_id := card2.id, target_id := card1.id,
       interaction_type := .sacrifice_outlet, weight := 0.7,
       description := some (card2.name ++ " can sacrifice " ++ card1.name ++
         " for value") }]
   else [])

/-- `_check_etb_synergy`. -/
def check_etb_synergy (card1 card2 : Card) : List Interaction :=
  let c1_blink := anySearch blink_patterns card1.oracle_text
  let c2_blink := anySearch blink_patterns card2.oracle_text
  (if c1_blink && card2.has_etb_trigger then
    [{ source_id := card1.id, target_id := card2.id,
       interaction_type := .etb_chain, weight := 0.85,
       description := some (card1.name ++ " can reuse " ++ card2.name ++
         "\x27s ETB") }]
   else []) ++
  (if c2_blink && card1.has_etb_trigger then
    [{ source_id := card2.id, target_id := card1.id,
       interaction_type := .etb_chain, weight := 0.85,
       description := some (card2.name ++ " can reuse " ++ card1.name ++
         "\x27s ETB") }]
   else [])

/-- `_check_counter_synergy`. -/
def check_counter_synergy (card1 card2 : Card) : List Interaction :=
  let c1_adds := anySearch counter_add_patterns card1.oracle_text
  let c2_adds := anySearch counter_add_patterns card2.oracle_text
  let c1_cares := card1.has_counter_synergy
  let c2_cares := card2.has_counter_synergy
  (if c1_adds && c2_cares then
    [{ source_id := card1.id, target_id := card2.id,
       interaction_type := .counter_synergy, weight := 0.75,
       description := some (card1.name ++ " adds counters for " ++ card2.name) }]
   else []) ++
  (if c2_adds && c1_cares then
    [{ source_id := card2.id, target_id := card1.id,
       interaction_type := .counter_synergy, weight := 0.75,
       description := some (card2.name ++ " adds counters for " ++ card1.name) }]
   else []) ++
  (if c1_cares && c2_cares && (c1_adds || c2_adds) then
    [{ source_id := card1.id, target_id := card2.id,
       interaction_type := .counter_synergy, weight := 0.7,
       description := some ("Both " ++ card1.name ++ " and " ++ card2.name ++
         " work with counters"),
       bidirectional := true }]
   else [])

/-- `_check_tribal_synergy`. -/
def check_tribal_synergy (card1 card2 : Card) : List Interaction :=
  let types1 := card1.get_creature_types.dedup
  let types2 := card2.get_creature_types.dedup
  let shared := types1.filter (fun t => types2.contains t)
  (if !shared.isEmpty && card1.is_creature && card2.is_creature then
    [{ source_id := card1.id, target_id := card2.id,
       interaction_type := .tribal, weight := 0.5,
       description := some ("Both are " ++ String.intercalate (", ") shared),
       bidirectional := true }]
   else []) ++
  ((types2.filter (fun ct => strContains (lowerStr card1.oracle_text) (lowerStr ct))).map
    (fun ct =>
      { source_id := card1.id, target_id := card2.id,
        interaction_type := .tribal, weight := 0.7,
        description := some (card1.name ++ " cares about " ++ ct ++ "s") })) ++
  ((types1.filter (fun ct => strContains (lowerStr card2.oracle_text) (lowerStr ct))).map
    (fun ct =>
      { source_id := card2.id, target_id := card1.id,
        interaction_type := .tribal, weight := 0.7,
        description := some (card2.name ++ " cares about " ++ ct ++ "s") }))

/-- `_check_type_matters`. -/
def check_type_matters (card1 card2 : Card) : List Interaction :=
  let matches1 := card1.get_referenced_types.filter
    (fun t => card2.get_card_types.contains t)
  let matches2 := card2.get_referenced_types.filter
    (fun t => card1.get_card_types.contains t)
  (if !matches1.isEmpty then
    [{ source_id := card1.id, target_id := card2.id,
       interaction_type := .type_matters, weight := 0.6,
       description := some (card1.name ++ " cares about " ++
         String.intercalate (", ") matches1) }]
   else []) ++
  (if !matches2.isEmpty then
    [{ source_id := card2.id, target_id := card1.id,
       interaction_type := .type_matters, weight := 0.6,
       description := some (card2.name ++ " cares about " ++
         String.intercalate (", ") matches2) }]
   else [])

/-- `_check_mana_relationship`. -/
def check_mana_relationship (card1 card2 : Card) : List Interaction :=
  (if card1.produces_mana && !card2.is_land && decide (4 ≤ card2.cmc) then
    [{ source_id := card1.id, target_id := card2.id,
       interaction_type := .mana_enables,
       weight := min (0.4 + card2.cmc * 0.05) 0.8,
       description := some (card1.name ++ " helps cast " ++ card2.name) }]
   else []) ++
  (if card2.produces_mana && !card1.is_land && decide (4 ≤ card1.cmc) then
    [{ source_id := card2.id, target_id := card1.id,
       interaction_type := .mana_enables,
       weight := min (0.4 + card1.cmc * 0.05) 0.8,
       description := some (card2.name ++ " helps cast " ++ card1.name) }]
   else [])

/-- `_check_keyword_synergy`. The outer `if "lifelink" in keywords1 or
"lifelink" in keywords2` gate of the source is implied by each inner
condition and is dropped without changing the emitted list. -/
def check_keyword_synergy (card1 card2 : Card) : List Interaction :=
  let keywords1 := card1.keywords.map lowerStr
  let keywords2 := card2.keywords.map lowerStr
  (if keywords1.contains ("deathtouch") &&
      (keywords2.contains ("first strike") || keywords2.contains ("double strike")) &&
      strContains (lowerStr card2.oracle_text) ("target creature gains") then
    [{ source_id := card2.id, target_id := card1.id,
       interaction_type := .buffs, weight := 0.75,
       description := some ("First strike + deathtouch combo") }]
   else []) ++
  (if keywords2.contains ("deathtouch") &&
      (keywords1.contains ("first strike") || keywords1.contains ("double strike")) &&
      strContains (lowerStr card1.oracle_text) ("target creature gains") then
    [{ source_id := card1.id, target_id := card2.id,
       interaction_type := .buffs, weight := 0.75,
       description := some ("First strike + deathtouch combo") }]
   else []) ++
  (if keywords1.contains ("lifelink") &&
      strContains (lowerStr card2.oracle_text) ("whenever you gain life") then
    [{ source_id := card1.id, target_id := card2.id,
       interaction_type := .enables, weight := 0.7,
       description := some (card1.name ++ " triggers " ++ card2.name) }]
   else []) ++
  (if keywords2.contains ("lifelink") &&
      strContains (lowerStr card1.oracle_text) ("whenever you gain life") then
    [{ source_id := card2.id, target_id := card1.id,
       interaction_type := .enables, weight := 0.7,
       description := some (card2.name ++ " triggers " ++ card1.name) }]
   else [])

/-- `_check_tutor_relationship`. -/
def check_tutor_relationship (card1 card2 : Card) : List Interaction :=
  ((tutor_type_patterns.filter (fun tp =>
      search tp.2 card1.oracle_text && strContains card2.type_line (capStr tp.1))).map
    (fun _ =>
      { source_id := card1.id, target_id := card2.id,
        interaction_type := .tutors, weight := 0.9,
        description := some (card1.name ++ " can find " ++ card2.name) })) ++
  ((tutor_type_patterns.filter (fun tp =>
      search tp.2 card2.oracle_text && strContains card1.type_line (capStr tp.1))).map
    (fun _ =>
      { source_id := card2.id, target_id := card1.id,
        interaction_type := .tutors, weight := 0.9,
        description := some (card2.name ++ " can find " ++ card1.name) }))

/-- `_detect_pair_interactions`. -/
def detect_pair (card1 card2 : Card) : List Interaction :=
  check_sacrifice_synergy card1 card2 ++
  check_etb_synergy card1 card2 ++
  check_counter_synergy card1 card2 ++
  check_tribal_synergy card1 card2 ++
  check_type_matters card1 card2 ++
  check_mana_relationship card1 card2 ++
  check_keyword_synergy card1 card2 ++
  check_tutor_relationship card1 card2

/-- `InteractionDetector.detect_all`: every pair of distinct positions
`i < j`, in the stable iteration order of the source. -/
def detect_all : List Card → List Interaction
  | [] => []
  | c :: rest => (rest.map (detect_pair c)).flatten ++ detect_all rest

/-! ### Deck graph (`src/core/graph/deck_graph.py`)

`networkx.Graph` is undirected with at most one edge per node pair and
attribute dictionaries on edges; an `Edge` record below carries the stored
endpoint orientation (the `add_edge` arguments) together with the
`interaction_types`, `weight` and `description` attributes used by
`add_interaction`. Nodes are carried as their ids; `add_interaction` never
reads or writes node attributes, and `nx.Graph.add_edge` appends missing
endpoints as fresh nodes. -/

structure Edge where
  a : String
  b : String
  interaction_types : List String
  weight : ℚ
  description : Option String
deriving DecidableEq

structure DGraph where
  nodes : List String
  edges : List Edge
deriving DecidableEq

/-- `nx.Graph.has_edge(s, t)` restricted to one stored edge: the unordered
pair `{s, t}` equals the edge's endpoint pair. -/
def edgeMatches (s t : String) (e : Edge) : Bool :=
  (e.a == s && e.b == t) || (e.a == t && e.b == s)

/-- The in-place update of the existing edge's attribute dictionary:
`types.append(value)`; `weight = max(existing, new)`. -/
def updEdge (e : Edge) (i : Interaction) : Edge :=
  { e with interaction_types := e.interaction_types ++ [i.interaction_type.value],
           weight := max e.weight i.weight }

/-- Update the edge stored for the matching pair (unique in a `nx.Graph`;
modelled as the first match). -/
def updateFirst (s t : String) (i : Interaction) : List Edge → List Edge
  | [] => []
  | e :: es =>
    if edgeMatches s t e then updEdge e i :: es
    else e :: updateFirst s t i es

/-- `nx.Graph.add_edge` node handling: missing endpoints are appended. -/
def addMissingNodes (ns : List String) (ids : List String) : List String :=
  ids.foldl (fun acc x => if acc.contains x then acc else acc ++ [x]) ns

/-- `DeckGraph.add_interaction`. -/
def add_interaction (g : DGraph) (i : Interaction) : DGraph :=
  if g.edges.any (edgeMatches i.source_id i.target_id) then
    { g with edges := updateFirst i.source_id i.target_id i g.edges }
  else
    { nodes := addMissingNodes g.nodes [i.source_id, i.target_id],
      edges := g.edges ++
        [{ a := i.source_id, b := i.target_id,
           interaction_types := [i.interaction_type.value],
           weight := i.weight, description := i.description }] }

/-- The loop `for interaction in interactions: self.add_interaction(...)`
(the spec's `ingest`). -/
def ingest (g : DGraph) (l : List Interaction) : DGraph :=
  l.foldl add_interaction g

/-- `DeckGraph._build_nodes` as far as the graph structure is concerned:
one node per unique card, no edges. (The stray `s` typo at
deck_graph.py:63 is treated as line noise; `detect_interactions` below is
the evident intent of lines 61-71.) -/
def build_nodes (cards : List Card) : DGraph :=
  { nodes := cards.map Card.id, edges := [] }

/-- `DeckGraph.detect_interactions`: detect over the unique cards and fold
every interaction into the graph. -/
def detect_interactions (cards : List Card) : DGraph :=
  ingest (build_nodes cards) (detect_all cards)

/-! ### Synergy weighter (`src/core/graph/synergy_weighter.py` and the
pure part of `src/core/graph/tagging.py`) -/

/-- `KeywordTagger.KEYWORD_CATEGORIES`, in insertion order; the sets are
carried as lists (only membership is read). -/
def KEYWORD_CATEGORIES : List (String × List String) :=
  [("evasion",
    ["flying", "menace", "trample", "intimidate", "fear", "skulk",
     "horsemanship", "shadow", "plainswalk", "islandwalk",
     "swampwalk", "mountainwalk", "forestwalk", "landwalk", "unblockable"]),
   ("combat",
    ["first strike", "double strike", "deathtouch", "vigilance", "reach",
     "trample", "rampage", "flanking", "bushido", "battle cry", "melee",
     "mentor", "training"]),
   ("protection",
    ["hexproof", "shroud", "indestructible", "protection", "ward",
     "defender", "absorb", "regenerate"]),
   ("speed", ["haste", "flash", "split second"]),
   ("recursion",
    ["persist", "undying", "unearth", "embalm", "eternalize", "encore",
     "escape", "retrace", "jump-start", "flashback", "aftermath", "recover",
     "dredge", "scavenge"]),
   ("economy",
    ["convoke", "delve", "affinity", "improvise", "assist", "bargain",
     "offering", "treasure", "gold"]),
   ("advantage",
    ["investigate", "clue", "cycling", "monarch", "initiative",
     "cascade", "discover", "explore", "scry", "surveil", "fateseal"]),
   ("removal", ["destroy", "exile", "fight", "bite", "sacrifice", "annihilator"]),
   ("tokens",
    ["populate", "proliferate", "amass", "incubate", "fabricate",
     "living weapon", "afterlife", "create"]),
   ("counters",
    ["proliferate", "support", "bolster", "adapt", "outlast",
     "evolve", "graft", "modular", "scavenge", "devour", "riot", "mentor"]),
   ("graveyard",
    ["mill", "surveil", "dredge", "delve", "escape", "flashback",
     "unearth", "threshold", "delirium"])]

/-- `KeywordTagger.get_category`: first category whose keyword set contains
the lower-cased keyword, else `"other"`. -/
def get_category (keyword : String) : String :=
  match KEYWORD_CATEGORIES.find? (fun p => p.2.contains (lowerStr keyword)) with
  | some p => p.1
  | none => "other"

/-- `SynergyWeighter.DEFAULT_CATEGORY_WEIGHTS`, in insertion order. -/
def DEFAULT_CATEGORY_WEIGHTS : List (String × ℚ) :=
  [("evasion", 1.2), ("combat", 1.1), ("protection", 1.3), ("speed", 1.1),
   ("recursion", 1.5), ("economy", 1.4), ("advantage", 1.3), ("removal", 1.2),
   ("tokens", 1.5), ("counters", 1.5), ("graveyard", 1.4), ("other", 1)]

/-- `DEFAULT_CONSTANT_C`. -/
def DEFAULT_CONSTANT_C : ℚ := 5

/-- `dict.get(key, default)` over an association list. -/
def dictGet (m : List (String × ℚ)) (k : String) (d : ℚ) : ℚ :=
  match m.find? (fun p => p.1 == k) with
  | some p => p.2
  | none => d

/-- `dict(defaults); d.update(overrides)`: overrides replace defaults and
new keys are appended, as in the constructor of `SynergyWeighter`. -/
def mergedWeights (overrides : List (String × ℚ)) : List (String × ℚ) :=
  (DEFAULT_CATEGORY_WEIGHTS.map (fun p =>
    match overrides.find? (fun q => q.1 == p.1) with
    | some q => (p.1, q.2)
    | none => p)) ++
  overrides.filter (fun q => !(DEFAULT_CATEGORY_WEIGHTS.any (fun p => p.1 == q.1)))

/-- `SynergyWeighter.check_direct_reference`. -/
def check_direct_reference (card1 card2 : Card) : Bool :=
  strContains card2.oracle_text card1.name ||
  strContains card1.oracle_text card2.name

/-- `SynergyWeighter.calculate_synergy_score` with weight table `weights`
(the default-constructed weighter uses `DEFAULT_CATEGORY_WEIGHTS`). -/
def calculate_synergy_score (weights : List (String × ℚ))
    (card1 card2 : Card) (interaction_tags : List String) : ℚ :=
  let score := interaction_tags.foldl
    (fun acc tag => acc + 1 * dictGet weights (get_category tag) 1) 0
  if check_direct_reference card1 card2 then score + DEFAULT_CONSTANT_C
  else score

/-! ### Graph analyzer (`src/core/graph/analysis.py`)

The analyzer delegates the non-degenerate numerical work to NetworkX.
Those library algorithms are not part of this repository; they are
modelled as an opaque record of functions `NxAlgs`, universally
quantified in every theorem, so that the proofs capture exactly the
control flow that analysis.py itself contributes (degenerate-case guards,
exception recovery, score combination, sorting and truncation).
`eigenvector` and `louvain` return `none` where the library call raises
(`PowerIterationFailedConvergence`; any exception, or the Louvain
algorithm being unavailable to the importing code). `pagerank` stands for
`nx.pagerank(self.graph.to_directed(), weight="weight")` as one opaque
whole. -/

structure NxAlgs where
  nxDegree : DGraph → List (String × ℚ)
  nxBetweenness : DGraph → List (String × ℚ)
  nxCloseness : DGraph → List (String × ℚ)
  nxEigenvector : DGraph → Option (List (String × ℚ))
  nxPagerank : DGraph → List (String × ℚ)
  nxClustering : DGraph → List (String × ℚ)
  nxAverageClustering : DGraph → ℚ
  nxLouvain : DGraph → Option (List (List String))
  nxComponents : DGraph → List (List String)

/-- `GraphAnalyzer.degree_centrality` (no degenerate guard in the source). -/
def degree_centrality (nx : NxAlgs) (g : DGraph) : List (String × ℚ) :=
  nx.nxDegree g

/-- `GraphAnalyzer.betweenness_centrality`. -/
def betweenness_centrality (nx : NxAlgs) (g : DGraph) : List (String × ℚ) :=
  if g.nodes.length < 2 then [] else nx.nxBetweenness g

/-- `GraphAnalyzer.closeness_centrality`. -/
def closeness_centrality (nx : NxAlgs) (g : DGraph) : List (String × ℚ) :=
  if g.nodes.length < 2 then [] else nx.nxCloseness g

/-- `GraphAnalyzer.eigenvector_centrality`: the
`except nx.PowerIterationFailedConvergence: return {}` recovery is the
`none` branch. -/
def eigenvector_centrality (nx : NxAlgs) (g : DGraph) : List (String × ℚ) :=
  if g.nodes.length < 2 then []
  else
    match nx.nxEigenvector g with
    | some m => m
    | none => []

/-- `GraphAnalyzer.pagerank`. -/
def pagerank (nx : NxAlgs) (g : DGraph) : List (String × ℚ) :=
  if g.nodes.length < 2 then [] else nx.nxPagerank g

/-- `GraphAnalyzer.clustering_coefficient` (no degenerate guard). -/
def clustering_coefficient (nx : NxAlgs) (g : DGraph) : List (String × ℚ) :=
  nx.nxClustering g

/-- `GraphAnalyzer.average_clustering`. -/
def average_clustering (nx : NxAlgs) (g : DGraph) : ℚ :=
  if g.nodes.length < 3 then 0 else nx.nxAverageClustering g

/-- `GraphAnalyzer.connected_components`. -/
def connected_components (nx : NxAlgs) (g : DGraph) : List (List String) :=
  nx.nxComponents g

/-- `GraphAnalyzer.detect_communities`: Louvain with recovery to connected
components. -/
def detect_communities (nx : NxAlgs) (g : DGraph) : List (List String) :=
  if g.nodes.length < 2 then [g.nodes]
  else
    match nx.nxLouvain g with
    | some cs => cs
    | none => connected_components nx g

/-- One entry of the `scores` dictionary of `GraphAnalyzer.key_cards`:
the card id with its metric breakdown. -/
structure KeyScore where
  card_id : String
  composite : ℚ
  degree : ℚ
  betweenness : ℚ
  pagerank : ℚ
  clustering : ℚ
deriving DecidableEq

/-- One score entry (`degree.get(card_id, 0) * 0.3 + ...`). -/
def mkScore (degree betw pr clus : List (String × ℚ)) (id : String) : KeyScore :=
  { card_id := id,
    composite := dictGet degree id 0 * 0.3 + dictGet betw id 0 * 0.3 +
      dictGet pr id 0 * 0.3 + dictGet clus id 0 * 0.1,
    degree := dictGet degree id 0,
    betweenness := dictGet betw id 0,
    pagerank := dictGet pr id 0,
    clustering := dictGet clus id 0 }

/-- The `scores` dictionary of `key_cards`, in node iteration order. -/
def scoresList (nx : NxAlgs) (g : DGraph) : List KeyScore :=
  g.nodes.map (mkScore (degree_centrality nx g) (betweenness_centrality nx g)
    (pagerank nx g) (clustering_coefficient nx g))

/-- The ordering used by `sorted(..., key=lambda x: composite, reverse=True)`:
descending by composite score. -/
def rcomp (x y : KeyScore) : Prop :=
  y.composite ≤ x.composite

instance : DecidableRel rcomp :=
  fun x y => inferInstanceAs (Decidable (y.composite ≤ x.composite))

instance : IsTotal KeyScore rcomp :=
  ⟨fun x y => by unfold rcomp; exact le_total _ _⟩

instance : IsTrans KeyScore rcomp :=
  ⟨fun _ _ _ h h' => by unfold rcomp at *; exact le_trans h' h⟩

/-- `GraphAnalyzer.key_cards`: Python `sorted` is a stable sort and
`reverse=True` keeps equal elements in their original relative order, which
is exactly `List.insertionSort` under the reflexive descending relation
`rcomp`. -/
def key_cards (nx : NxAlgs) (g : DGraph) (top_n : ℕ) : List KeyScore :=
  (List.insertionSort rcomp (scoresList nx g)).take top_n

/-! ### Auxiliary notions for the theorems -/

/-- The two edges carry the same unordered endpoint pair. -/
def sameKey (e e' : Edge) : Prop :=
  (e'.a = e.a ∧ e'.b = e.b) ∨ (e'.a = e.b ∧ e'.b = e.a)

/-- At most one stored edge per unordered pair (the `nx.Graph` shape
invariant). -/
def oneEdgePerPair (g : DGraph) : Prop :=
  g.edges.Pairwise (fun e e' => ¬ sameKey e e')

/-- Old edge versus new edge after further ingestion: endpoints and
description unchanged, weight not decreased, type list extended at the end. -/
def EdgeExt (e e' : Edge) : Prop :=
  e'.a = e.a ∧ e'.b = e.b ∧ e'.description = e.description ∧
  e.weight ≤ e'.weight ∧ e.interaction_types <+: e'.interaction_types

/-- Old edge versus new edge after a weight-neutral re-ingestion: as
`EdgeExt` but with the weight exactly unchanged. -/
def EdgeSame (e e' : Edge) : Prop :=
  e'.a = e.a ∧ e'.b = e.b ∧ e'.description = e.description ∧
  e'.weight = e.weight ∧ e.interaction_types <+: e'.interaction_types

/-- `g'` extends `g`: the old edges are still there in order (possibly
updated as in `EdgeExt`) followed by newly created edges. -/
def GExt (g g' : DGraph) : Prop :=
  ∃ pre tail, g'.edges = pre ++ tail ∧ List.Forall₂ EdgeExt g.edges pre

/-- `g'` is `g` after a second pass that changed nothing but type lists:
same nodes, edges pointwise `EdgeSame`. -/
def IngestSame (g g' : DGraph) : Prop :=
  g'.nodes = g.nodes ∧ List.Forall₂ EdgeSame g.edges g'.edges

/-- The graph already stores an edge for `i`'s pair, the first stored match
carrying weight at least `i.weight`. -/
def Sat (g : DGraph) (i : Interaction) : Prop :=
  ∃ p e s, g.edges = p ++ e :: s ∧
    (∀ e' ∈ p, edgeMatches i.source_id i.target_id e' = false) ∧
    edgeMatches i.source_id i.target_id e = true ∧
    i.weight ≤ e.weight

/-- An interaction for the unordered pair `{x, y}`, oriented by `dir`. -/
def mkI (x y : String) (ty : IType) (w : ℚ) (dir : Bool) : Interaction :=
  if dir then
    { source_id := x, target_id := y, interaction_type := ty, weight := w }
  else
    { source_id := y, target_id := x, interaction_type := ty, weight := w }

/-- Trivial instantiation of the external algorithms, for witnesses. -/
def nxTrivial : NxAlgs :=
  { nxDegree := fun _ => [],
    nxBetweenness := fun _ => [],
    nxCloseness := fun _ => [],
    nxEigenvector := fun _ => none,
    nxPagerank := fun _ => [],
    nxClustering := fun _ => [],
    nxAverageClustering := fun _ => 0,
    nxLouvain := fun _ => none,
    nxComponents := fun _ => [] }

/-! Concrete cards and graphs for counterexamples and witnesses. -/

/-- A sacrifice outlet that is not a creature and has no death trigger. -/
def cardSac : Card :=
  { id := "a", name := "Alpha",
    oracle_text := "Sacrifice a creature: Do it.", type_line := "Artifact" }

/-- A non-creature card whose text is a death-trigger payoff. -/
def cardDeath : Card :=
  { id := "b", name := "Beta",
    oracle_text := "Whenever a creature dies, draw a card.",
    type_line := "Enchantment" }

/-- A creature with a death trigger (good sacrifice fodder). -/
def cardFodder : Card :=
  { id := "b", name := "Beta",
    oracle_text := "When this creature dies, draw a card.",
    type_line := "Creature" }

/-- A plain card with empty rules text. -/
def cardPlainA : Card := { id := "a", name := "Alpha" }

/-- Another plain card with empty rules text. -/
def cardPlainB : Card := { id := "b", name := "Beta" }

/-- A mana producer (a land). -/
def cardLand : Card :=
  { id := "a", name := "Alpha", type_line := "Land" }

/-- An expensive non-land card. -/
def cardBig : Card :=
  { id := "b", name := "Beta", type_line := "Sorcery", cmc := 6 }

/-- A two-node graph with no edges. -/
def gAB : DGraph := { nodes := ["a", "b"], edges := [] }

/-- A one-node graph. -/
def gSingle : DGraph := { nodes := ["x"], edges := [] }

/-- A death-chain interaction from `"a"` to `"b"`, as the detector emits it. -/
def iDC : Interaction :=
  { source_id := "a", target_id := "b", interaction_type := .death_chain,
    weight := 0.8, description := some ("d") }

/-- The DEATH_CHAIN interaction `_check_sacrifice_synergy` emits from
`card1` to `card2`. -/
def dcI (card1 card2 : Card) : Interaction :=
  { source_id := card1.id, target_id := card2.id,
    interaction_type := .death_chain, weight := 0.8,
    description := some (card1.name ++
      " can sacrifice creatures to trigger " ++ card2.name) }

/-- The SACRIFICE_OUTLET interaction `_check_sacrifice_synergy` emits from
`card1` to `card2`. -/
def soI (card1 card2 : Card) : Interaction :=
  { source_id := card1.id, target_id := card2.id,
    interaction_type := .sacrifice_outlet, weight := 0.7,
    description := some (card1.name ++ " can sacrifice " ++ card2.name ++
      " for value") }

/-- The MANA_ENABLES interaction `_check_mana_relationship` emits from
`card1` to `card2`. -/
def meI (card1 card2 : Card) : Interaction :=
  { source_id := card1.id, target_id := card2.id,
    interaction_type := .mana_enables,
    weight := min (0.4 + card2.cmc * 0.05) 0.8,
    description := some (card1.name ++ " helps cast " ++ card2.name) }

/-- A stored edge between `"a"` and `"b"`. -/
def eAB : Edge :=
  { a := "a", b := "b", interaction_types := ["death_chain"],
    weight := 0.8, description := some ("d") }

/-- A graph already holding `eAB`. -/
def gWithEdge : DGraph := { nodes := ["a", "b"], edges := [eAB] }

/-- A sacrifice-outlet interaction from `"a"` to `"b"`. -/
def iSO : Interaction :=
  { source_id := "a", target_id := "b",
    interaction_type := .sacrifice_outlet, weight := 0.7,
    description := some ("e") }

/-! ## Theorems -/

/-- C6: for a graph with 0 or 1 nodes, betweenness, closeness, eigenvector
and pagerank centrality each return the empty map and `average_clustering`
returns 0, whatever the underlying library algorithms would do; no library
algorithm is even invoked (the guards short-circuit for every `nx`). -/
theorem C6_degenerate_graph (nx : NxAlgs) (g : DGraph)
    (h : g.nodes.length ≤ 1) :
    betweenness_centrality nx g = [] ∧ closeness_centrality nx g = [] ∧
    eigenvector_centrality nx g = [] ∧ pagerank nx g = [] ∧
    average_clustering nx g = 0 := by
  have h2 : g.nodes.length < 2 := by omega
  have h3 : g.nodes.length < 3 := by omega
  exact ⟨by simp [betweenness_centrality, h2],
    by simp [closeness_centrality, h2],
    by simp [eigenvector_centrality, h2],
    by simp [pagerank, h2],
    by simp [average_clustering, h3]⟩

/-- Witness for C6 at a concrete one-node graph. -/
theorem C6_degenerate_graph_witness :
    betweenness_centrality nxTrivial gSingle = [] ∧
    closeness_centrality nxTrivial gSingle = [] ∧
    eigenvector_centrality nxTrivial gSingle = [] ∧
    pagerank nxTrivial gSingle = [] ∧
    average_clustering nxTrivial gSingle = 0 :=
  C6_degenerate_graph nxTrivial gSingle (by decide)

/-- C7: when the Louvain call fails (raises or is unavailable, the `none`
branch), `detect_communities` returns the connected-components partition
instead of propagating the error; and for fewer than 2 nodes it returns the
single community consisting of the whole node set. -/
theorem C7_community_recovery (nx : NxAlgs) (g : DGraph) :
    (g.nodes.length < 2 → detect_communities nx g = [g.nodes]) ∧
    (nx.nxLouvain g = none → 2 ≤ g.nodes.length →
      detect_communities nx g = connected_components nx g) := by
  constructor
  · intro h
    simp [detect_communities, h]
  · intro hl h
    have h2 : ¬ g.nodes.length < 2 := by omega
    simp [detect_communities, h2, hl]

/-- Witness for C7: both branches at concrete graphs with the failing
Louvain of `nxTrivial`. -/
theorem C7_community_recovery_witness :
    detect_communities nxTrivial gSingle = [gSingle.nodes] ∧
    detect_communities nxTrivial gAB = connected_components nxTrivial gAB :=
  ⟨(C7_community_recovery nxTrivial gSingle).1 (by decide),
   (C7_community_recovery nxTrivial gAB).2 (by decide) (by decide)⟩

/-- C2 counterexample: two cards with empty rules texts (so no direct name
reference), tags `["recursion", "graveyard"]`, default weights: the score
is 2, not the claimed 2.9 — both tags fall through `get_category` to the
`"other"` category of weight 1, because the category keyword sets do not
contain the category names themselves. -/
theorem C2_counterexample :
    check_direct_reference cardPlainA cardPlainB = false ∧
    calculate_synergy_score DEFAULT_CATEGORY_WEIGHTS cardPlainA cardPlainB
      ["recursion", "graveyard"] = 2 ∧
    (2 : ℚ) ≠ 2.9 := by
  have hd : check_direct_reference cardPlainA cardPlainB = false := by decide
  have h1 : dictGet DEFAULT_CATEGORY_WEIGHTS (get_category ("recursion")) 1 = 1 := by
    decide
  have h2 : dictGet DEFAULT_CATEGORY_WEIGHTS (get_category ("graveyard")) 1 = 1 := by
    decide
  refine ⟨hd, ?_, by norm_num⟩
  unfold calculate_synergy_score
  rw [hd]
  simp only [List.foldl, h1, h2]
  norm_num

/-- C2 amended: with default weights and tags `["recursion", "graveyard"]`,
`calculate_synergy_score` returns 2 when neither card's name occurs in the
other's rules text (each tag is looked up as a keyword, is found in no
category keyword set, falls back to category `"other"` and weight 1), and
2 + 5 = 7 when a direct name reference exists. -/
theorem C2_amended_default_score (c1 c2 : Card) :
    calculate_synergy_score DEFAULT_CATEGORY_WEIGHTS c1 c2
      ["recursion", "graveyard"] =
      if check_direct_reference c1 c2 then 7 else 2 := by
  have h1 : dictGet DEFAULT_CATEGORY_WEIGHTS (get_category ("recursion")) 1 = 1 := by
    decide
  have h2 : dictGet DEFAULT_CATEGORY_WEIGHTS (get_category ("graveyard")) 1 = 1 := by
    decide
  unfold calculate_synergy_score
  simp only [List.foldl, h1, h2, DEFAULT_CONSTANT_C]
  split <;> norm_num

/-- Updating the unique matching edge rewrites exactly that edge in place. -/
theorem updateFirst_append (s t : String) (i : Interaction) (e : Edge)
    (rest : List Edge) :
    ∀ p : List Edge, (∀ e' ∈ p, edgeMatches s t e' = false) →
      edgeMatches s t e = true →
      updateFirst s t i (p ++ e :: rest) = p ++ updEdge e i :: rest
  | [], _, he => by simp [updateFirst, he]
  | q :: p', hp, he => by
    have hq : edgeMatches s t q = false := hp q (by simp)
    simp only [List.cons_append, updateFirst, hq, Bool.false_eq_true, if_false,
      List.cons.injEq, true_and]
    exact updateFirst_append s t i e rest p'
      (fun e' h => hp e' (by simp [h])) he

/-- C9: merging an interaction into an already stored edge leaves the node
set and every other edge untouched and rewrites only the matched edge,
whose endpoints and description (the first contributing description) are
kept while the type list is extended and the weight becomes the maximum. -/
theorem C9_merge_frame (g : DGraph) (i : Interaction) (p : List Edge) (e : Edge)
    (s : List Edge) (hg : g.edges = p ++ e :: s)
    (hp : ∀ e' ∈ p, edgeMatches i.source_id i.target_id e' = false)
    (he : edgeMatches i.source_id i.target_id e = true) :
    (add_interaction g i).nodes = g.nodes ∧
    (add_interaction g i).edges = p ++ updEdge e i :: s ∧
    (updEdge e i).a = e.a ∧ (updEdge e i).b = e.b ∧
    (updEdge e i).description = e.description ∧
    (updEdge e i).interaction_types =
      e.interaction_types ++ [i.interaction_type.value] ∧
    (updEdge e i).weight = max e.weight i.weight := by
  have hany : g.edges.any (edgeMatches i.source_id i.target_id) = true := by
    rw [hg]
    exact List.any_eq_true.mpr ⟨e, by simp, he⟩
  have hupd := updateFirst_append i.source_id i.target_id i e s p hp he
  refine ⟨?_, ?_, rfl, rfl, rfl, rfl, rfl⟩
  · simp only [add_interaction, hany, if_true]
  · simp only [add_interaction, hany, if_true]
    rw [hg]
    exact hupd

/-- Witness for C9 at a concrete one-edge graph and interaction. -/
theorem C9_merge_frame_witness :
    (add_interaction gWithEdge iSO).nodes = gWithEdge.nodes ∧
    (add_interaction gWithEdge iSO).edges = [] ++ updEdge eAB iSO :: [] ∧
    (updEdge eAB iSO).a = eAB.a ∧ (updEdge eAB iSO).b = eAB.b ∧
    (updEdge eAB iSO).description = eAB.description ∧
    (updEdge eAB iSO).interaction_types =
      eAB.interaction_types ++ [iSO.interaction_type.value] ∧
    (updEdge eAB iSO).weight = max eAB.weight iSO.weight :=
  C9_merge_frame gWithEdge iSO [] eAB [] rfl (by simp) (by decide)

/-- `edgeMatches` does not depend on the query orientation. -/
theorem edgeMatches_symm (s t : String) (e : Edge) :
    edgeMatches s t e = edgeMatches t s e := by
  unfold edgeMatches
  exact Bool.or_comm _ _

/-- `updateFirst` never changes endpoint pairs. -/
theorem updateFirst_keys (s t : String) (i : Interaction) :
    ∀ es : List Edge,
      (updateFirst s t i es).map (fun e => (e.a, e.b)) =
        es.map (fun e => (e.a, e.b))
  | [] => rfl
  | e :: es => by
    unfold updateFirst
    split
    · simp [updEdge]
    · simp [updateFirst_keys s t i es]

/-- `add_interaction` preserves the at-most-one-edge-per-unordered-pair
shape invariant of `nx.Graph`. -/
theorem add_interaction_oneEdgePerPair (g : DGraph) (i : Interaction)
    (h : oneEdgePerPair g) : oneEdgePerPair (add_interaction g i) := by
  unfold oneEdgePerPair at *
  unfold add_interaction
  split
  · show (updateFirst i.source_id i.target_id i g.edges).Pairwise _
    have hkeys := updateFirst_keys i.source_id i.target_id i g.edges
    have hiff :
        ∀ l : List Edge,
          l.Pairwise (fun e e' => ¬ sameKey e e') ↔
            (l.map (fun e => (e.a, e.b))).Pairwise
              (fun k k' => ¬ ((k'.1 = k.1 ∧ k'.2 = k.2) ∨ (k'.1 = k.2 ∧ k'.2 = k.1))) := by
      intro l
      rw [List.pairwise_map]
      rfl
    rw [hiff, hkeys, ← hiff]
    exact h
  · rename_i hany
    rw [List.pairwise_append]
    refine ⟨h, by simp, ?_⟩
    intro e he e' he'
    simp only [List.mem_singleton] at he'
    subst he'
    have hm : ¬ ((e.a = i.source_id ∧ e.b = i.target_id) ∨
        (e.a = i.target_id ∧ e.b = i.source_id)) := by
      intro hcon
      have hmt : edgeMatches i.source_id i.target_id e = true := by
        unfold edgeMatches
        rcases hcon with ⟨ha, hb⟩ | ⟨ha, hb⟩ <;> simp [ha, hb]
      exact hany (List.any_eq_true.mpr ⟨e, he, hmt⟩)
    simp only [sameKey]
    intro hcon
    apply hm
    rcases hcon with ⟨ha, hb⟩ | ⟨ha, hb⟩
    · exact Or.inl ⟨ha.symm, hb.symm⟩
    · exact Or.inr ⟨hb.symm, ha.symm⟩

/-- Ingesting two interactions for one fresh unordered pair creates one
edge and merges the second interaction into it. -/
theorem ingest_two_fresh (g : DGraph) (i1 i2 : Interaction)
    (h1 : ∀ e ∈ g.edges, edgeMatches i1.source_id i1.target_id e = false)
    (h2no : ∀ e ∈ g.edges, edgeMatches i2.source_id i2.target_id e = false)
    (h2same : edgeMatches i2.source_id i2.target_id
      { a := i1.source_id, b := i1.target_id,
        interaction_types := [i1.interaction_type.value],
        weight := i1.weight, description := i1.description } = true) :
    ingest g [i1, i2] =
      { nodes := addMissingNodes g.nodes [i1.source_id, i1.target_id],
        edges := g.edges ++
          [{ a := i1.source_id, b := i1.target_id,
             interaction_types :=
               [i1.interaction_type.value, i2.interaction_type.value],
             weight := max i1.weight i2.weight,
             description := i1.description }] } := by
  have hany1 : g.edges.any (edgeMatches i1.source_id i1.target_id) = false := by
    rw [List.any_eq_false]
    intro x hx
    simp [h1 x hx]
  show add_interaction (add_interaction g i1) i2 = _
  have hstep1 : add_interaction g i1 =
      { nodes := addMissingNodes g.nodes [i1.source_id, i1.target_id],
        edges := g.edges ++
          [{ a := i1.source_id, b := i1.target_id,
             interaction_types := [i1.interaction_type.value],
             weight := i1.weight, description := i1.description }] } := by
    unfold add_interaction
    rw [hany1]
    simp
  rw [hstep1]
  have hany2 : (g.edges ++
      ([{ a := i1.source_id, b := i1.target_id,
          interaction_types := [i1.interaction_type.value],
          weight := i1.weight, description := i1.description }] : List Edge)).any
        (edgeMatches i2.source_id i2.target_id) = true :=
    List.any_eq_true.mpr
      ⟨({ a := i1.source_id, b := i1.target_id,
          interaction_types := [i1.interaction_type.value],
          weight := i1.weight, description := i1.description } : Edge),
       by simp, h2same⟩
  have hupd := updateFirst_append i2.source_id i2.target_id i2
    { a := i1.source_id, b := i1.target_id,
      interaction_types := [i1.interaction_type.value],
      weight := i1.weight, description := i1.description } [] g.edges h2no h2same
  unfold add_interaction
  rw [if_pos hany2]
  simp only [List.append_nil] at hupd
  rw [hupd]
  rfl

/-- C4: ingesting two interactions for the same fresh unordered pair, in
either direction, with weights 0.6 and 0.9, yields exactly one edge for
that pair; its weight is 0.9 (the maximum of the contributing weights) and
its type list contains both interaction types. Moreover `add_interaction`
preserves the at-most-one-edge-per-unordered-pair invariant on any graph. -/
theorem C4_edge_merge_semantics (g : DGraph) (a b : String) (i1 i2 : Interaction)
    (hno : ∀ e ∈ g.edges, edgeMatches a b e = false)
    (hp1 : (i1.source_id = a ∧ i1.target_id = b) ∨
      (i1.source_id = b ∧ i1.target_id = a))
    (hp2 : (i2.source_id = a ∧ i2.target_id = b) ∨
      (i2.source_id = b ∧ i2.target_id = a))
    (hw1 : i1.weight = 0.6) (hw2 : i2.weight = 0.9) :
    ((ingest g [i1, i2]).edges.filter (edgeMatches a b)).length = 1 ∧
    (∃ e ∈ (ingest g [i1, i2]).edges,
        edgeMatches a b e = true ∧ e.weight = 0.9 ∧
        e.weight = max i1.weight i2.weight ∧
        i1.interaction_type.value ∈ e.interaction_types ∧
        i2.interaction_type.value ∈ e.interaction_types) ∧
    (∀ (g' : DGraph) (i : Interaction), oneEdgePerPair g' →
        oneEdgePerPair (add_interaction g' i)) := by
  have h1 : ∀ e ∈ g.edges, edgeMatches i1.source_id i1.target_id e = false := by
    rcases hp1 with ⟨hs, ht⟩ | ⟨hs, ht⟩ <;> rw [hs, ht] <;> intro e he
    · exact hno e he
    · rw [edgeMatches_symm]
      exact hno e he
  have h2no : ∀ e ∈ g.edges, edgeMatches i2.source_id i2.target_id e = false := by
    rcases hp2 with ⟨hs, ht⟩ | ⟨hs, ht⟩ <;> rw [hs, ht] <;> intro e he
    · exact hno e he
    · rw [edgeMatches_symm]
      exact hno e he
  have h2same : edgeMatches i2.source_id i2.target_id
      ({ a := i1.source_id, b := i1.target_id,
         interaction_types := [i1.interaction_type.value],
         weight := i1.weight, description := i1.description } : Edge) = true := by
    rcases hp1 with ⟨hs1, ht1⟩ | ⟨hs1, ht1⟩ <;>
      rcases hp2 with ⟨hs2, ht2⟩ | ⟨hs2, ht2⟩ <;>
      simp [edgeMatches, hs1, ht1, hs2, ht2]
  rw [ingest_two_fresh g i1 i2 h1 h2no h2same]
  have hE : edgeMatches a b
      ({ a := i1.source_id, b := i1.target_id,
         interaction_types :=
           [i1.interaction_type.value, i2.interaction_type.value],
         weight := max i1.weight i2.weight,
         description := i1.description } : Edge) = true := by
    rcases hp1 with ⟨hs1, ht1⟩ | ⟨hs1, ht1⟩ <;> simp [edgeMatches, hs1, ht1]
  have hfilnil : g.edges.filter (edgeMatches a b) = [] := by
    rw [List.filter_eq_nil_iff]
    intro e he
    simp [hno e he]
  have hmax : max i1.weight i2.weight = 0.9 := by
    rw [hw1, hw2]
    rw [max_eq_right]
    norm_num
  refine ⟨?_, ?_, fun g' i h => add_interaction_oneEdgePerPair g' i h⟩
  · simp only [List.filter_append, hfilnil, List.nil_append, List.filter,  hE]
    rfl
  · refine ⟨_, by simp, hE, ?_, rfl, by simp, by simp⟩
    exact hmax

/-- Witness for C4 at a concrete pair and concrete interactions, one per
direction. -/
theorem C4_edge_merge_semantics_witness :
    ((ingest gAB [mkI ("a") ("b") .death_chain 0.6 true,
        mkI ("a") ("b") .sacrifice_outlet 0.9 false]).edges.filter
      (edgeMatches ("a") ("b"))).length = 1 ∧
    (∃ e ∈ (ingest gAB [mkI ("a") ("b") .death_chain 0.6 true,
        mkI ("a") ("b") .sacrifice_outlet 0.9 false]).edges,
      edgeMatches ("a") ("b") e = true ∧ e.weight = 0.9 ∧
      e.weight = max (mkI ("a") ("b") .death_chain 0.6 true).weight
        (mkI ("a") ("b") .sacrifice_outlet 0.9 false).weight ∧
      (mkI ("a") ("b") .death_chain 0.6 true).interaction_type.value ∈
        e.interaction_types ∧
      (mkI ("a") ("b") .sacrifice_outlet 0.9 false).interaction_type.value ∈
        e.interaction_types) ∧
    (∀ (g' : DGraph) (i : Interaction), oneEdgePerPair g' →
        oneEdgePerPair (add_interaction g' i)) :=
  C4_edge_merge_semantics gAB ("a") ("b") _ _ (by simp [gAB])
    (Or.inl ⟨rfl, rfl⟩) (Or.inr ⟨rfl, rfl⟩) rfl rfl

/-- `EdgeExt` is reflexive. -/
theorem EdgeExt_refl (e : Edge) : EdgeExt e e :=
  ⟨rfl, rfl, rfl, le_refl _, List.prefix_rfl⟩

/-- `EdgeExt` is transitive. -/
theorem EdgeExt_trans {e1 e2 e3 : Edge} (h1 : EdgeExt e1 e2) (h2 : EdgeExt e2 e3) :
    EdgeExt e1 e3 := by
  obtain ⟨a1, b1, d1, w1, t1⟩ := h1
  obtain ⟨a2, b2, d2, w2, t2⟩ := h2
  exact ⟨a2.trans a1, b2.trans b1, d2.trans d1, w1.trans w2, t1.trans t2⟩

/-- `EdgeSame` is reflexive. -/
theorem EdgeSame_refl (e : Edge) : EdgeSame e e :=
  ⟨rfl, rfl, rfl, rfl, List.prefix_rfl⟩

/-- `EdgeSame` is transitive. -/
theorem EdgeSame_trans {e1 e2 e3 : Edge} (h1 : EdgeSame e1 e2) (h2 : EdgeSame e2 e3) :
    EdgeSame e1 e3 := by
  obtain ⟨a1, b1, d1, w1, t1⟩ := h1
  obtain ⟨a2, b2, d2, w2, t2⟩ := h2
  exact ⟨a2.trans a1, b2.trans b1, d2.trans d1, w2.trans w1, t1.trans t2⟩

/-- Splitting a `Forall₂` along an append on the left. -/
theorem forall₂_decomp {α β : Type} {R : α → β → Prop} :
    ∀ {l1 l2 : List α} {m : List β}, List.Forall₂ R (l1 ++ l2) m →
      ∃ m1 m2, m = m1 ++ m2 ∧ List.Forall₂ R l1 m1 ∧ List.Forall₂ R l2 m2 := by
  intro l1
  induction l1 with
  | nil =>
    intro l2 m h
    exact ⟨[], m, rfl, List.Forall₂.nil, h⟩
  | cons a l1 ih =>
    intro l2 m h
    rw [List.cons_append] at h
    rcases List.forall₂_cons_left_iff.mp h with ⟨b, m', hR, h', rfl⟩
    rcases ih h' with ⟨m1, m2, rfl, f1, f2⟩
    exact ⟨b :: m1, m2, rfl, List.Forall₂.cons hR f1, f2⟩

/-- `Forall₂` composes along a transitive relation. -/
theorem forall₂_trans_of {α : Type} {R : α → α → Prop}
    (ht : ∀ a b c, R a b → R b c → R a c) :
    ∀ {l m n : List α}, List.Forall₂ R l m → List.Forall₂ R m n →
      List.Forall₂ R l n := by
  intro l m n h1
  induction h1 generalizing n with
  | nil =>
    intro h2
    cases h2
    exact List.Forall₂.nil
  | cons hR hrest ih =>
    intro h2
    cases h2 with
    | cons hR2 hrest2 => exact List.Forall₂.cons (ht _ _ _ hR hR2) (ih hrest2)

/-- Transport a pointwise property along a `Forall₂`. -/
theorem forall₂_pred {α β : Type} {R : α → β → Prop} {P : α → Prop} {Q : β → Prop}
    (hPQ : ∀ x y, R x y → P x → Q y) :
    ∀ {l : List α} {m : List β}, List.Forall₂ R l m →
      (∀ x ∈ l, P x) → ∀ y ∈ m, Q y := by
  intro l m h
  induction h with
  | nil =>
    intro _ y hy
    simp at hy
  | cons hR hrest ih =>
    intro hall y hy
    rcases List.mem_cons.mp hy with rfl | hy'
    · exact hPQ _ _ hR (hall _ (by simp))
    · exact ih (fun x hx => hall x (by simp [hx])) y hy'

/-- A positive `any` yields the first matching element and the unmatched
elements before it. -/
theorem exists_first_match {α : Type} (p : α → Bool) :
    ∀ {l : List α}, l.any p = true →
      ∃ pre x suf, l = pre ++ x :: suf ∧ (∀ y ∈ pre, p y = false) ∧
        p x = true := by
  intro l
  induction l with
  | nil =>
    intro h
    simp at h
  | cons a l ih =>
    intro h
    cases hpa : p a with
    | true => exact ⟨[], a, l, rfl, by simp, hpa⟩
    | false =>
      have h' : l.any p = true := by
        rw [List.any_cons, hpa] at h
        simpa using h
      rcases ih h' with ⟨pre, x, suf, rfl, hpre, hx⟩
      refine ⟨a :: pre, x, suf, rfl, ?_, hx⟩
      intro y hy
      rcases List.mem_cons.mp hy with rfl | hy'
      · exact hpa
      · exact hpre y hy'

/-- `edgeMatches` only reads an edge's endpoints. -/
theorem edgeMatches_congr (s t : String) {x y : Edge}
    (ha : y.a = x.a) (hb : y.b = x.b) :
    edgeMatches s t y = edgeMatches s t x := by
  unfold edgeMatches
  rw [ha, hb]

/-- `updateFirst` only extends edges in the sense of `EdgeExt`. -/
theorem updateFirst_forall₂ (s t : String) (i : Interaction) :
    ∀ es : List Edge, List.Forall₂ EdgeExt es (updateFirst s t i es)
  | [] => List.Forall₂.nil
  | e :: es => by
    unfold updateFirst
    split
    · exact List.Forall₂.cons
        ⟨rfl, rfl, rfl, le_max_left _ _, List.prefix_append _ _⟩
        (List.forall₂_same.mpr (fun x _ => EdgeExt_refl x))
    · exact List.Forall₂.cons (EdgeExt_refl e) (updateFirst_forall₂ s t i es)

/-- One `add_interaction` step extends the graph. -/
theorem GExt_add (g : DGraph) (i : Interaction) : GExt g (add_interaction g i) := by
  unfold add_interaction
  split
  · exact ⟨updateFirst i.source_id i.target_id i g.edges, [], by simp,
      updateFirst_forall₂ _ _ _ _⟩
  · exact ⟨g.edges, _, rfl, List.forall₂_same.mpr (fun x _ => EdgeExt_refl x)⟩

/-- `GExt` is transitive. -/
theorem GExt_trans {g1 g2 g3 : DGraph} (h1 : GExt g1 g2) (h2 : GExt g2 g3) :
    GExt g1 g3 := by
  rcases h1 with ⟨pre1, tail1, he1, f1⟩
  rcases h2 with ⟨pre2, tail2, he2, f2⟩
  rw [he1] at f2
  rcases forall₂_decomp f2 with ⟨m1, m2, rfl, fa, _⟩
  exact ⟨m1, m2 ++ tail2, by rw [he2, List.append_assoc],
    @forall₂_trans_of Edge EdgeExt (fun _ _ _ hab hbc => EdgeExt_trans hab hbc)
      g1.edges pre1 m1 f1 fa⟩

/-- Ingestion extends the graph. -/
theorem GExt_ingest : ∀ (l : List Interaction) (g : DGraph), GExt g (ingest g l)
  | [], g => ⟨g.edges, [], by simp [ingest], List.forall₂_same.mpr (fun x _ => EdgeExt_refl x)⟩
  | i :: l, g =>
    GExt_trans (GExt_add g i) (GExt_ingest l (add_interaction g i))

/-- `Sat` is preserved by graph extension. -/
theorem Sat_mono {g g' : DGraph} {i : Interaction} (hs : Sat g i)
    (hg : GExt g g') : Sat g' i := by
  rcases hs with ⟨p, e, s, he, hp, hm, hw⟩
  rcases hg with ⟨pre, tail, he', f⟩
  rw [he] at f
  rcases forall₂_decomp f with ⟨p', rest, rfl, fp, fr⟩
  rcases List.forall₂_cons_left_iff.mp fr with ⟨e', s', hR, _, rfl⟩
  refine ⟨p', e', s' ++ tail, by rw [he', List.append_assoc, List.cons_append], ?_, ?_, ?_⟩
  · exact forall₂_pred
      (fun x y hxy hx => by
        rw [edgeMatches_congr i.source_id i.target_id hxy.1 hxy.2.1]
        exact hx)
      fp hp
  · rw [edgeMatches_congr i.source_id i.target_id hR.1 hR.2.1]
    exact hm
  · exact hw.trans hR.2.2.2.1

/-- After adding `i`, the graph stores a first matching edge for `i`'s pair
with weight at least `i.weight`. -/
theorem Sat_add (g : DGraph) (i : Interaction) : Sat (add_interaction g i) i := by
  unfold add_interaction
  split
  · rename_i hany
    rcases exists_first_match _ hany with ⟨pre, x, suf, hdecomp, hpre, hx⟩
    refine ⟨pre, updEdge x i, suf, ?_, hpre, hx, le_max_right _ _⟩
    show updateFirst i.source_id i.target_id i g.edges = _
    rw [hdecomp]
    exact updateFirst_append _ _ _ _ _ _ hpre hx
  · rename_i hany
    refine ⟨g.edges, _, [], rfl, ?_, ?_, le_refl _⟩
    · intro y hy
      cases hbz : edgeMatches i.source_id i.target_id y with
      | false => rfl
      | true => exact absurd (List.any_eq_true.mpr ⟨y, hy, hbz⟩) hany
    · simp [edgeMatches]

/-- Every interaction of an ingested list is satisfied in the result. -/
theorem Sat_ingest : ∀ (l : List Interaction) (g : DGraph),
    ∀ i ∈ l, Sat (ingest g l) i := by
  intro l
  induction l with
  | nil =>
    intro g i hi
    simp at hi
  | cons j l ih =>
    intro g i hi
    rcases List.mem_cons.mp hi with rfl | hi'
    · exact Sat_mono (Sat_add g i) (GExt_ingest l (add_interaction g i))
    · exact ih (add_interaction g j) i hi'

/-- Re-adding a satisfied interaction only appends its type tag: nodes,
endpoints, descriptions and weights are unchanged. -/
theorem add_same {g : DGraph} {i : Interaction} (hs : Sat g i) :
    IngestSame g (add_interaction g i) := by
  rcases hs with ⟨p, e, s, he, hp, hm, hw⟩
  have hany : g.edges.any (edgeMatches i.source_id i.target_id) = true := by
    rw [he]
    exact List.any_eq_true.mpr ⟨e, by simp, hm⟩
  unfold add_interaction
  rw [if_pos hany]
  refine ⟨rfl, ?_⟩
  show List.Forall₂ EdgeSame g.edges (updateFirst i.source_id i.target_id i g.edges)
  rw [he, updateFirst_append _ _ _ _ _ _ hp hm]
  exact List.rel_append (List.forall₂_same.mpr (fun x _ => EdgeSame_refl x))
    (List.Forall₂.cons
      ⟨rfl, rfl, rfl, max_eq_left hw, List.prefix_append _ _⟩
      (List.forall₂_same.mpr (fun x _ => EdgeSame_refl x)))

/-- `IngestSame` is transitive. -/
theorem IngestSame_trans {g1 g2 g3 : DGraph} (h1 : IngestSame g1 g2)
    (h2 : IngestSame g2 g3) : IngestSame g1 g3 :=
  ⟨h2.1.trans h1.1,
   @forall₂_trans_of Edge EdgeSame (fun _ _ _ hab hbc => EdgeSame_trans hab hbc)
     g1.edges g2.edges g3.edges h1.2 h2.2⟩

/-- Ingesting a list of already-satisfied interactions changes nothing but
type lists. -/
theorem ingest_same_of_sat : ∀ (l : List Interaction) (g : DGraph),
    (∀ i ∈ l, Sat g i) → IngestSame g (ingest g l)
  | [], g, _ => ⟨rfl, List.forall₂_same.mpr (fun x _ => EdgeSame_refl x)⟩
  | j :: l, g, hall => by
    have h1 : IngestSame g (add_interaction g j) := add_same (hall j (by simp))
    have hrest : ∀ i ∈ l, Sat (add_interaction g j) i := fun i hi =>
      Sat_mono (hall i (by simp [hi])) (GExt_add g j)
    exact IngestSame_trans h1 (ingest_same_of_sat l (add_interaction g j) hrest)

/-- C1 counterexample: ingesting the same one-element interaction list
twice duplicates the type tag on the edge — the type list after the second
ingest is `["death_chain", "death_chain"]`, which has a duplicate entry,
refuting the claimed `Nodup`/idempotence of the edge set (after one ingest
the list is `["death_chain"]`). -/
theorem C1_counterexample :
    (ingest gAB [iDC]).edges.map Edge.interaction_types = [["death_chain"]] ∧
    (ingest (ingest gAB [iDC]) [iDC]).edges.map Edge.interaction_types =
      [["death_chain", "death_chain"]] ∧
    ¬ (["death_chain", "death_chain"] : List String).Nodup := by
  refine ⟨rfl, rfl, by decide⟩

/-- C1 amended: a second ingest of the identical interaction list is *not*
idempotent on type lists — it appends every interaction's type tag again
(no not-already-present check exists in `add_interaction`), producing
duplicate entries — but it is idempotent on everything else: the node
list, the number of edges and each edge's endpoints, description and
weight are unchanged, and each old type list is a prefix of the new one. -/
theorem C1_ingest_second_pass (g : DGraph) (l : List Interaction) :
    (ingest (ingest g l) l).nodes = (ingest g l).nodes ∧
    List.Forall₂ EdgeSame (ingest g l).edges (ingest (ingest g l) l).edges :=
  ingest_same_of_sat l (ingest g l) (Sat_ingest l g)

/-- Inserting into a list commutes with filtering on an exact composite
value: an element inserted by the descending order goes before precisely
the equal-composite elements that follow it. -/
theorem filter_orderedInsert_comp (q : ℚ) (a : KeyScore) :
    ∀ l : List KeyScore,
      (List.orderedInsert rcomp a l).filter (fun e => e.composite == q) =
        if a.composite = q then
          a :: l.filter (fun e => e.composite == q)
        else l.filter (fun e => e.composite == q)
  | [] => by
    by_cases h : a.composite = q <;> simp [List.orderedInsert, h]
  | b :: l => by
    unfold List.orderedInsert
    split
    · rename_i hab
      by_cases h : a.composite = q <;> simp [List.filter_cons, h]
    · rename_i hab
      have hlt : a.composite < b.composite := by
        have := not_le.mp (fun hc => hab hc)
        exact this
      by_cases h : a.composite = q
      · have hb : ¬ b.composite = q := by
          intro hbq
          rw [h] at hlt
          rw [hbq] at hlt
          exact lt_irrefl q hlt
        simp [List.filter_cons, hb, filter_orderedInsert_comp q a l, h]
      · simp only [List.filter_cons, filter_orderedInsert_comp q a l, h, if_false]

/-- The stable descending sort leaves the subsequence of entries with any
given composite value untouched: Python's stable `sorted(..., reverse=True)`
breaks ties by original order. -/
theorem filter_insertionSort_comp (q : ℚ) :
    ∀ l : List KeyScore,
      (List.insertionSort rcomp l).filter (fun e => e.composite == q) =
        l.filter (fun e => e.composite == q)
  | [] => rfl
  | a :: l => by
    show (List.orderedInsert rcomp a (List.insertionSort rcomp l)).filter _ = _
    rw [filter_orderedInsert_comp q a (List.insertionSort rcomp l),
      filter_insertionSort_comp q l]
    by_cases h : a.composite = q <;> simp [List.filter_cons, h]

/-- C8: `key_cards` returns at most `top_n` entries, sorted descending by
composite score; every returned entry's metrics are the `dict.get(_, 0)`
lookups from the four centrality maps and its composite is the stated
0.3/0.3/0.3/0.1 linear combination; the result is the `top_n`-prefix of the
stable descending sort of the node-order score list, and that sort leaves
the relative order of equal-composite entries exactly as in node iteration
order (the filter identity), i.e. ties are broken by original node order. -/
theorem C8_key_cards (nx : NxAlgs) (g : DGraph) (N : ℕ) :
    (key_cards nx g N).length ≤ N ∧
    (key_cards nx g N).Pairwise rcomp ∧
    (∀ e ∈ key_cards nx g N,
      e.degree = dictGet (degree_centrality nx g) e.card_id 0 ∧
      e.betweenness = dictGet (betweenness_centrality nx g) e.card_id 0 ∧
      e.pagerank = dictGet (pagerank nx g) e.card_id 0 ∧
      e.clustering = dictGet (clustering_coefficient nx g) e.card_id 0 ∧
      e.composite = e.degree * 0.3 + e.betweenness * 0.3 +
        e.pagerank * 0.3 + e.clustering * 0.1) ∧
    key_cards nx g N = (List.insertionSort rcomp (scoresList nx g)).take N ∧
    (∀ q : ℚ,
      (List.insertionSort rcomp (scoresList nx g)).filter
          (fun e => e.composite == q) =
        (scoresList nx g).filter (fun e => e.composite == q)) := by
  refine ⟨?_, ?_, ?_, rfl, fun q => filter_insertionSort_comp q _⟩
  · exact List.length_take_le N _
  · exact ((List.sorted_insertionSort rcomp (scoresList nx g)).sublist
      (List.take_sublist N _))
  · intro e he
    have he' : e ∈ List.insertionSort rcomp (scoresList nx g) :=
      List.mem_of_mem_take he
    have he'' : e ∈ scoresList nx g :=
      (List.perm_insertionSort rcomp (scoresList nx g)).mem_iff.mp he'
    rcases List.mem_map.mp he'' with ⟨id, _, rfl⟩
    exact ⟨rfl, rfl, rfl, rfl, rfl⟩

/-- Witness for C8 at a concrete graph, algorithms and bound. -/
theorem C8_key_cards_witness :
    (key_cards nxTrivial gAB 10).length ≤ 10 ∧
    (key_cards nxTrivial gAB 10).Pairwise rcomp ∧
    (∀ e ∈ key_cards nxTrivial gAB 10,
      e.degree = dictGet (degree_centrality nxTrivial gAB) e.card_id 0 ∧
      e.betweenness = dictGet (betweenness_centrality nxTrivial gAB) e.card_id 0 ∧
      e.pagerank = dictGet (pagerank nxTrivial gAB) e.card_id 0 ∧
      e.clustering = dictGet (clustering_coefficient nxTrivial gAB) e.card_id 0 ∧
      e.composite = e.degree * 0.3 + e.betweenness * 0.3 +
        e.pagerank * 0.3 + e.clustering * 0.1) ∧
    key_cards nxTrivial gAB 10 =
      (List.insertionSort rcomp (scoresList nxTrivial gAB)).take 10 ∧
    (∀ q : ℚ,
      (List.insertionSort rcomp (scoresList nxTrivial gAB)).filter
          (fun e => e.composite == q) =
        (scoresList nxTrivial gAB).filter (fun e => e.composite == q)) :=
  C8_key_cards nxTrivial gAB 10

theorem check_sac_shape (c1 c2 : Card) :
    ∀ i ∈ check_sacrifice_synergy c1 c2,
      ((i.source_id = c1.id ∧ i.target_id = c2.id) ∨
        (i.source_id = c2.id ∧ i.target_id = c1.id)) ∧
      (i.interaction_type = .death_chain ∨
        i.interaction_type = .sacrifice_outlet) := by
  intro i hi
  simp only [check_sacrifice_synergy, List.mem_append] at hi
  rcases hi with (((hi | hi) | hi) | hi)
  · split at hi
    · rw [List.mem_singleton] at hi
      subst hi
      exact ⟨Or.inl ⟨rfl, rfl⟩, Or.inl rfl⟩
    · exact absurd hi (List.not_mem_nil i)
  · split at hi
    · rw [List.mem_singleton] at hi
      subst hi
      exact ⟨Or.inr ⟨rfl, rfl⟩, Or.inl rfl⟩
    · exact absurd hi (List.not_mem_nil i)
  · split at hi
    · rw [List.mem_singleton] at hi
      subst hi
      exact ⟨Or.inl ⟨rfl, rfl⟩, Or.inr rfl⟩
    · exact absurd hi (List.not_mem_nil i)
  · split at hi
    · rw [List.mem_singleton] at hi
      subst hi
      exact ⟨Or.inr ⟨rfl, rfl⟩, Or.inr rfl⟩
    · exact absurd hi (List.not_mem_nil i)

theorem check_etb_shape (c1 c2 : Card) :
    ∀ i ∈ check_etb_synergy c1 c2,
      ((i.source_id = c1.id ∧ i.target_id = c2.id) ∨
        (i.source_id = c2.id ∧ i.target_id = c1.id)) ∧
      i.interaction_type = .etb_chain := by
  intro i hi
  simp only [check_etb_synergy, List.mem_append] at hi
  rcases hi with hi | hi
  · split at hi
    · rw [List.mem_singleton] at hi
      subst hi
      exact ⟨Or.inl ⟨rfl, rfl⟩, rfl⟩
    · exact absurd hi (List.not_mem_nil i)
  · split at hi
    · rw [List.mem_singleton] at hi
      subst hi
      exact ⟨Or.inr ⟨rfl, rfl⟩, rfl⟩
    · exact absurd hi (List.not_mem_nil i)

theorem check_counter_shape (c1 c2 : Card) :
    ∀ i ∈ check_counter_synergy c1 c2,
      ((i.source_id = c1.id ∧ i.target_id = c2.id) ∨
        (i.source_id = c2.id ∧ i.target_id = c1.id)) ∧
      i.interaction_type = .counter_synergy := by
  intro i hi
  simp only [check_counter_synergy, List.mem_append] at hi
  rcases hi with (hi | hi) | hi
  · split at hi
    · rw [List.mem_singleton] at hi
      subst hi
      exact ⟨Or.inl ⟨rfl, rfl⟩, rfl⟩
    · exact absurd hi (List.not_mem_nil i)
  · split at hi
    · rw [List.mem_singleton] at hi
      subst hi
      exact ⟨Or.inr ⟨rfl, rfl⟩, rfl⟩
    · exact absurd hi (List.not_mem_nil i)
  · split at hi
    · rw [List.mem_singleton] at hi
      subst hi
      exact ⟨Or.inl ⟨rfl, rfl⟩, rfl⟩
    · exact absurd hi (List.not_mem_nil i)

theorem check_tribal_shape (c1 c2 : Card) :
    ∀ i ∈ check_tribal_synergy c1 c2,
      ((i.source_id = c1.id ∧ i.target_id = c2.id) ∨
        (i.source_id = c2.id ∧ i.target_id = c1.id)) ∧
      i.interaction_type = .tribal := by
  intro i hi
  simp only [check_tribal_synergy, List.mem_append] at hi
  rcases hi with (hi | hi) | hi
  · split at hi
    · rw [List.mem_singleton] at hi
      subst hi
      exact ⟨Or.inl ⟨rfl, rfl⟩, rfl⟩
    · exact absurd hi (List.not_mem_nil i)
  · rcases List.mem_map.mp hi with ⟨ct, _, rfl⟩
    exact ⟨Or.inl ⟨rfl, rfl⟩, rfl⟩
  · rcases List.mem_map.mp hi with ⟨ct, _, rfl⟩
    exact ⟨Or.inr ⟨rfl, rfl⟩, rfl⟩

theorem check_type_shape (c1 c2 : Card) :
    ∀ i ∈ check_type_matters c1 c2,
      ((i.source_id = c1.id ∧ i.target_id = c2.id) ∨
        (i.source_id = c2.id ∧ i.target_id = c1.id)) ∧
      i.interaction_type = .type_matters := by
  intro i hi
  simp only [check_type_matters, List.mem_append] at hi
  rcases hi with hi | hi
  · split at hi
    · rw [List.mem_singleton] at hi
      subst hi
      exact ⟨Or.inl ⟨rfl, rfl⟩, rfl⟩
    · exact absurd hi (List.not_mem_nil i)
  · split at hi
    · rw [List.mem_singleton] at hi
      subst hi
      exact ⟨Or.inr ⟨rfl, rfl⟩, rfl⟩
    · exact absurd hi (List.not_mem_nil i)

theorem check_mana_shape (c1 c2 : Card) :
    ∀ i ∈ check_mana_relationship c1 c2,
      ((i.source_id = c1.id ∧ i.target_id = c2.id) ∨
        (i.source_id = c2.id ∧ i.target_id = c1.id)) ∧
      i.interaction_type = .mana_enables := by
  intro i hi
  simp only [check_mana_relationship, List.mem_append] at hi
  rcases hi with hi | hi
  · split at hi
    · rw [List.mem_singleton] at hi
      subst hi
      exact ⟨Or.inl ⟨rfl, rfl⟩, rfl⟩
    · exact absurd hi (List.not_mem_nil i)
  · split at hi
    · rw [List.mem_singleton] at hi
      subst hi
      exact ⟨Or.inr ⟨rfl, rfl⟩, rfl⟩
    · exact absurd hi (List.not_mem_nil i)

theorem check_keyword_shape (c1 c2 : Card) :
    ∀ i ∈ check_keyword_synergy c1 c2,
      ((i.source_id = c1.id ∧ i.target_id = c2.id) ∨
        (i.source_id = c2.id ∧ i.target_id = c1.id)) ∧
      (i.interaction_type = .buffs ∨ i.interaction_type = .enables) := by
  intro i hi
  simp only [check_keyword_synergy, List.mem_append] at hi
  rcases hi with (((hi | hi) | hi) | hi)
  · split at hi
    · rw [List.mem_singleton] at hi
      subst hi
      exact ⟨Or.inr ⟨rfl, rfl⟩, Or.inl rfl⟩
    · exact absurd hi (List.not_mem_nil i)
  · split at hi
    · rw [List.mem_singleton] at hi
      subst hi
      exact ⟨Or.inl ⟨rfl, rfl⟩, Or.inl rfl⟩
    · exact absurd hi (List.not_mem_nil i)
  · split at hi
    · rw [List.mem_singleton] at hi
      subst hi
      exact ⟨Or.inl ⟨rfl, rfl⟩, Or.inr rfl⟩
    · exact absurd hi (List.not_mem_nil i)
  · split at hi
    · rw [List.mem_singleton] at hi
      subst hi
      exact ⟨Or.inr ⟨rfl, rfl⟩, Or.inr rfl⟩
    · exact absurd hi (List.not_mem_nil i)

theorem check_tutor_shape (c1 c2 : Card) :
    ∀ i ∈ check_tutor_relationship c1 c2,
      ((i.source_id = c1.id ∧ i.target_id = c2.id) ∨
        (i.source_id = c2.id ∧ i.target_id = c1.id)) ∧
      i.interaction_type = .tutors := by
  intro i hi
  simp only [check_tutor_relationship, List.mem_append] at hi
  rcases hi with hi | hi
  · rcases List.mem_map.mp hi with ⟨tp, _, rfl⟩
    exact ⟨Or.inl ⟨rfl, rfl⟩, rfl⟩
  · rcases List.mem_map.mp hi with ⟨tp, _, rfl⟩
    exact ⟨Or.inr ⟨rfl, rfl⟩, rfl⟩

/-- Every interaction a pair check emits runs from one card of the pair to
the other. -/
theorem detect_pair_ids (c1 c2 : Card) :
    ∀ i ∈ detect_pair c1 c2,
      (i.source_id = c1.id ∧ i.target_id = c2.id) ∨
        (i.source_id = c2.id ∧ i.target_id = c1.id) := by
  intro i hi
  simp only [detect_pair, List.mem_append] at hi
  rcases hi with (((((((hi | hi) | hi) | hi) | hi) | hi) | hi) | hi)
  · exact (check_sac_shape c1 c2 i hi).1
  · exact (check_etb_shape c1 c2 i hi).1
  · exact (check_counter_shape c1 c2 i hi).1
  · exact (check_tribal_shape c1 c2 i hi).1
  · exact (check_type_shape c1 c2 i hi).1
  · exact (check_mana_shape c1 c2 i hi).1
  · exact (check_keyword_shape c1 c2 i hi).1
  · exact (check_tutor_shape c1 c2 i hi).1

/-- The pair check of any two positions `i < j` is contained in
`detect_all`. -/
theorem detect_pair_sub :
    ∀ (l1 : List Card) (c1 : Card) (l2 : List Card) (c2 : Card) (l3 : List Card),
      ∀ i ∈ detect_pair c1 c2, i ∈ detect_all (l1 ++ c1 :: l2 ++ c2 :: l3)
  | [], c1, l2, c2, l3, i, hi => by
    show i ∈ detect_all (c1 :: (l2 ++ c2 :: l3))
    unfold detect_all
    apply List.mem_append_left
    apply List.mem_flatten.mpr
    exact ⟨detect_pair c1 c2, List.mem_map.mpr ⟨c2, by simp, rfl⟩, hi⟩
  | a :: l1, c1, l2, c2, l3, i, hi => by
    show i ∈ detect_all (a :: (l1 ++ c1 :: l2 ++ c2 :: l3))
    unfold detect_all
    exact List.mem_append_right _ (detect_pair_sub l1 c1 l2 c2 l3 i hi)

/-- Two members with different ids occupy distinct positions, in one of the
two orders. -/
theorem mem_mem_decomp {cards : List Card} {A B : Card} (hA : A ∈ cards)
    (hB : B ∈ cards) (hne : A.id ≠ B.id) :
    (∃ l1 l2 l3, cards = l1 ++ A :: l2 ++ B :: l3) ∨
      (∃ l1 l2 l3, cards = l1 ++ B :: l2 ++ A :: l3) := by
  induction cards with
  | nil => cases hA
  | cons c rest ih =>
    rcases List.mem_cons.mp hA with rfl | hA'
    · have hB' : B ∈ rest := by
        rcases List.mem_cons.mp hB with h | h
        · exact absurd (by rw [h]) hne
        · exact h
      rcases List.append_of_mem hB' with ⟨l2, l3, rfl⟩
      exact Or.inl ⟨[], l2, l3, rfl⟩
    · rcases List.mem_cons.mp hB with rfl | hB'
      · rcases List.append_of_mem hA' with ⟨l2, l3, rfl⟩
        exact Or.inr ⟨[], l2, l3, rfl⟩
      · rcases ih hA' hB' with ⟨l1, l2, l3, rfl⟩ | ⟨l1, l2, l3, rfl⟩
        · exact Or.inl ⟨c :: l1, l2, l3, rfl⟩
        · exact Or.inr ⟨c :: l1, l2, l3, rfl⟩

/-- Every detected interaction comes from the pair check of two positions
`i < j` of the input list. -/
theorem detect_all_mem :
    ∀ {cards : List Card} {i : Interaction}, i ∈ detect_all cards →
      ∃ c1 c2 l1 l2 l3, cards = l1 ++ c1 :: l2 ++ c2 :: l3 ∧
        i ∈ detect_pair c1 c2 := by
  intro cards
  induction cards with
  | nil =>
    intro i hi
    simp [detect_all] at hi
  | cons c rest ih =>
    intro i hi
    unfold detect_all at hi
    rcases List.mem_append.mp hi with hi | hi
    · rcases List.mem_flatten.mp hi with ⟨block, hblock, hi'⟩
      rcases List.mem_map.mp hblock with ⟨c2, hc2, rfl⟩
      rcases List.append_of_mem hc2 with ⟨l2, l3, rfl⟩
      exact ⟨c, c2, [], l2, l3, rfl, hi'⟩
    · rcases ih hi with ⟨c1, c2, l1, l2, l3, rfl, hi'⟩
      exact ⟨c1, c2, c :: l1, l2, l3, rfl, hi'⟩

/-- In a list with pairwise distinct ids, the id determines the member. -/
theorem id_inj : ∀ {cards : List Card},
    cards.Pairwise (fun x y => x.id ≠ y.id) →
      ∀ {x y : Card}, x ∈ cards → y ∈ cards → x.id = y.id → x = y := by
  intro cards hd
  induction cards with
  | nil =>
    intro x y hx
    cases hx
  | cons c rest ih =>
    rcases List.pairwise_cons.mp hd with ⟨hc, hd'⟩
    intro x y hx hy h
    rcases List.mem_cons.mp hx with rfl | hx'
    · rcases List.mem_cons.mp hy with rfl | hy'
      · rfl
      · exact absurd h (hc y hy')
    · rcases List.mem_cons.mp hy with rfl | hy'
      · exact absurd h.symm (hc x hx')
      · exact ih hd' hx' hy' h

/-- The two cards of a positional decomposition have distinct ids when the
list has pairwise distinct ids. -/
theorem decomp_ne {cards : List Card} {c1 c2 : Card} {l1 l2 l3 : List Card}
    (hd : cards.Pairwise (fun x y => x.id ≠ y.id))
    (hc : cards = l1 ++ c1 :: l2 ++ c2 :: l3) : c1.id ≠ c2.id := by
  subst hc
  have hsub : List.Sublist [c1, c2] (l1 ++ c1 :: l2 ++ c2 :: l3) := by
    have h1 : List.Sublist [c1] (c1 :: l2) := (List.nil_sublist l2).cons₂ c1
    have h2 : List.Sublist [c1] (l1 ++ c1 :: l2) :=
      h1.trans (List.sublist_append_right l1 _)
    have h3 : List.Sublist [c2] (c2 :: l3) := (List.nil_sublist l3).cons₂ c2
    exact h2.append h3
  have hp : List.Pairwise (fun x y => x.id ≠ y.id) [c1, c2] :=
    List.Pairwise.sublist hsub hd
  rcases List.pairwise_cons.mp hp with ⟨h, _⟩
  exact h c2 (by simp)

/-- `add_interaction` never creates a self-loop from a non-self
interaction. -/
theorem add_no_self (g : DGraph) (i : Interaction)
    (hi : i.source_id ≠ i.target_id) (hg : ∀ e ∈ g.edges, e.a ≠ e.b) :
    ∀ e ∈ (add_interaction g i).edges, e.a ≠ e.b := by
  unfold add_interaction
  split
  · intro e he
    exact @forall₂_pred Edge Edge EdgeExt (fun x => x.a ≠ x.b)
      (fun y => y.a ≠ y.b)
      (fun x y hxy hx => by
        show y.a ≠ y.b
        rw [hxy.1, hxy.2.1]
        exact hx)
      g.edges _ (updateFirst_forall₂ i.source_id i.target_id i g.edges)
      hg e he
  · intro e he
    rcases List.mem_append.mp he with he | he
    · exact hg e he
    · rw [List.mem_singleton] at he
      subst he
      exact hi

/-- Folding a list of non-self interactions into a graph without
self-loops yields a graph without self-loops. -/
theorem ingest_no_self : ∀ (l : List Interaction) (g : DGraph),
    (∀ i ∈ l, i.source_id ≠ i.target_id) → (∀ e ∈ g.edges, e.a ≠ e.b) →
      ∀ e ∈ (ingest g l).edges, e.a ≠ e.b
  | [], _, _, hg => hg
  | i :: l, g, hl, hg =>
    ingest_no_self l (add_interaction g i)
      (fun j hj => hl j (by simp [hj]))
      (add_no_self g i (hl i (by simp)) hg)

/-- C10: on an input list with pairwise distinct card ids, every
interaction `detect_all` emits has distinct source and target (pairs are
drawn from distinct positions only), and hence building the deck graph and
ingesting the detected interactions never creates a self-loop edge. -/
theorem C10_no_self_interactions (cards : List Card)
    (hd : cards.Pairwise (fun x y => x.id ≠ y.id)) :
    (∀ i ∈ detect_all cards, i.source_id ≠ i.target_id) ∧
    (∀ e ∈ (detect_interactions cards).edges, e.a ≠ e.b) := by
  have hmain : ∀ i ∈ detect_all cards, i.source_id ≠ i.target_id := by
    intro i hi
    rcases detect_all_mem hi with ⟨c1, c2, l1, l2, l3, rfl, hip⟩
    have hne := decomp_ne hd rfl
    rcases detect_pair_ids c1 c2 i hip with ⟨hs, ht⟩ | ⟨hs, ht⟩
    · rw [hs, ht]
      exact hne
    · rw [hs, ht]
      exact hne.symm
  exact ⟨hmain,
    ingest_no_self (detect_all cards) (build_nodes cards) hmain
      (by simp [build_nodes])⟩

/-- Witness for C10 at a concrete two-card list. -/
theorem C10_no_self_interactions_witness :
    (∀ i ∈ detect_all [cardSac, cardFodder], i.source_id ≠ i.target_id) ∧
    (∀ e ∈ (detect_interactions [cardSac, cardFodder]).edges, e.a ≠ e.b) :=
  C10_no_self_interactions [cardSac, cardFodder] (by decide)

/-- Forward DEATH_CHAIN emission of the sacrifice check. -/
theorem dc_mem_fwd (c1 c2 : Card)
    (h1 : anySearch sacrifice_outlet_patterns c1.oracle_text = true)
    (h2 : anySearch death_trigger_patterns c2.oracle_text = true) :
    dcI c1 c2 ∈ check_sacrifice_synergy c1 c2 := by
  simp [check_sacrifice_synergy, h1, h2, dcI]

/-- Reversed-call DEATH_CHAIN emission of the sacrifice check. -/
theorem dc_mem_rev (c1 c2 : Card)
    (h1 : anySearch sacrifice_outlet_patterns c1.oracle_text = true)
    (h2 : anySearch death_trigger_patterns c2.oracle_text = true) :
    dcI c1 c2 ∈ check_sacrifice_synergy c2 c1 := by
  simp [check_sacrifice_synergy, h1, h2, dcI]

/-- Forward SACRIFICE_OUTLET emission of the sacrifice check. -/
theorem so_mem_fwd (c1 c2 : Card)
    (h1 : anySearch sacrifice_outlet_patterns c1.oracle_text = true)
    (hdt : c2.has_death_trigger = true) (hcr : c2.is_creature = true) :
    soI c1 c2 ∈ check_sacrifice_synergy c1 c2 := by
  simp [check_sacrifice_synergy, h1, hdt, hcr, soI]

/-- Reversed-call SACRIFICE_OUTLET emission of the sacrifice check. -/
theorem so_mem_rev (c1 c2 : Card)
    (h1 : anySearch sacrifice_outlet_patterns c1.oracle_text = true)
    (hdt : c2.has_death_trigger = true) (hcr : c2.is_creature = true) :
    soI c1 c2 ∈ check_sacrifice_synergy c2 c1 := by
  simp [check_sacrifice_synergy, h1, hdt, hcr, soI]

/-- The sacrifice check is part of the pair check. -/
theorem sac_sub_pair (c1 c2 : Card) :
    ∀ i ∈ check_sacrifice_synergy c1 c2, i ∈ detect_pair c1 c2 := by
  intro i h
  unfold detect_pair
  exact List.mem_append_left _ (List.mem_append_left _ (List.mem_append_left _
    (List.mem_append_left _ (List.mem_append_left _ (List.mem_append_left _
      (List.mem_append_left _ h))))))

/-- C3 counterexample: `cardSac` matches the sacrifice-outlet pattern and
the non-creature `cardDeath` matches a death-trigger pattern; `detect_all`
emits exactly the DEATH_CHAIN interaction and no SACRIFICE_OUTLET
interaction, because SACRIFICE_OUTLET additionally requires the target to
be a creature. -/
theorem C3_counterexample :
    anySearch sacrifice_outlet_patterns cardSac.oracle_text = true ∧
    anySearch death_trigger_patterns cardDeath.oracle_text = true ∧
    detect_all [cardSac, cardDeath] = [dcI cardSac cardDeath] := by
  exact ⟨by decide, by decide, rfl⟩

/-- C3 amended: for members `A`, `B` of the card list with distinct ids,
if `A`'s text matches a sacrifice-outlet pattern and `B`'s text matches a
death-trigger pattern then `detect_all` contains the DEATH_CHAIN
interaction `A → B` of weight 0.8; if additionally `B` is a creature whose
text satisfies `Card.has_death_trigger`, it also contains the
SACRIFICE_OUTLET interaction `A → B` of weight 0.7. -/
theorem C3_sacrifice_death (cards : List Card) (A B : Card)
    (hA : A ∈ cards) (hB : B ∈ cards) (hne : A.id ≠ B.id)
    (hout : anySearch sacrifice_outlet_patterns A.oracle_text = true)
    (hdeath : anySearch death_trigger_patterns B.oracle_text = true) :
    dcI A B ∈ detect_all cards ∧
    (B.has_death_trigger = true → B.is_creature = true →
      soI A B ∈ detect_all cards) := by
  rcases mem_mem_decomp hA hB hne with ⟨l1, l2, l3, rfl⟩ | ⟨l1, l2, l3, rfl⟩
  · exact ⟨detect_pair_sub l1 A l2 B l3 _
      (sac_sub_pair A B _ (dc_mem_fwd A B hout hdeath)),
     fun hdt hcr => detect_pair_sub l1 A l2 B l3 _
      (sac_sub_pair A B _ (so_mem_fwd A B hout hdt hcr))⟩
  · exact ⟨detect_pair_sub l1 B l2 A l3 _
      (sac_sub_pair B A _ (dc_mem_rev A B hout hdeath)),
     fun hdt hcr => detect_pair_sub l1 B l2 A l3 _
      (sac_sub_pair B A _ (so_mem_rev A B hout hdt hcr))⟩

/-- Witness for C3 at a two-card list whose second card is a creature with
a death trigger, so both interactions are present. -/
theorem C3_sacrifice_death_witness :
    dcI cardSac cardFodder ∈ detect_all [cardSac, cardFodder] ∧
    soI cardSac cardFodder ∈ detect_all [cardSac, cardFodder] := by
  have h := C3_sacrifice_death [cardSac, cardFodder] cardSac cardFodder
    (by simp) (by simp) (by decide) (by decide) (by decide)
  exact ⟨h.1, h.2 (by decide) (by decide)⟩

/-- Exact characterization of the mana check's output. -/
theorem check_mana_mem (c1 c2 : Card) (i : Interaction) :
    i ∈ check_mana_relationship c1 c2 ↔
      (c1.produces_mana = true ∧ c2.is_land = false ∧ 4 ≤ c2.cmc ∧
        i = meI c1 c2) ∨
      (c2.produces_mana = true ∧ c1.is_land = false ∧ 4 ≤ c1.cmc ∧
        i = meI c2 c1) := by
  constructor
  · intro hi
    simp only [check_mana_relationship, List.mem_append] at hi
    rcases hi with hi | hi
    · split at hi
      · rename_i hc
        rw [List.mem_singleton] at hi
        simp only [Bool.and_eq_true, Bool.not_eq_true', decide_eq_true_eq] at hc
        exact Or.inl ⟨hc.1.1, hc.1.2, hc.2, by rw [hi]; rfl⟩
      · exact absurd hi (List.not_mem_nil i)
    · split at hi
      · rename_i hc
        rw [List.mem_singleton] at hi
        simp only [Bool.and_eq_true, Bool.not_eq_true', decide_eq_true_eq] at hc
        exact Or.inr ⟨hc.1.1, hc.1.2, hc.2, by rw [hi]; rfl⟩
      · exact absurd hi (List.not_mem_nil i)
  · rintro (⟨h1, h2, h3, rfl⟩ | ⟨h1, h2, h3, rfl⟩)
    · apply List.mem_append_left
      rw [if_pos (by simp [h1, h2, h3])]
      simp [meI]
    · apply List.mem_append_right
      rw [if_pos (by simp [h1, h2, h3])]
      simp [meI]

/-- MANA_ENABLES interactions come only from the mana check. -/
theorem detect_pair_ME (c1 c2 : Card) :
    ∀ i ∈ detect_pair c1 c2, i.interaction_type = .mana_enables →
      i ∈ check_mana_relationship c1 c2 := by
  intro i hi hME
  simp only [detect_pair, List.mem_append] at hi
  rcases hi with (((((((hi | hi) | hi) | hi) | hi) | hi) | hi) | hi)
  · rcases (check_sac_shape c1 c2 i hi).2 with h | h <;> rw [hME] at h <;> simp at h
  · have h := (check_etb_shape c1 c2 i hi).2
    rw [hME] at h
    simp at h
  · have h := (check_counter_shape c1 c2 i hi).2
    rw [hME] at h
    simp at h
  · have h := (check_tribal_shape c1 c2 i hi).2
    rw [hME] at h
    simp at h
  · have h := (check_type_shape c1 c2 i hi).2
    rw [hME] at h
    simp at h
  · exact hi
  · rcases (check_keyword_shape c1 c2 i hi).2 with h | h <;> rw [hME] at h <;>
      simp at h
  · have h := (check_tutor_shape c1 c2 i hi).2
    rw [hME] at h
    simp at h

/-- The mana check is part of the pair check. -/
theorem mana_sub_pair (c1 c2 : Card) :
    ∀ i ∈ check_mana_relationship c1 c2, i ∈ detect_pair c1 c2 := by
  intro i h
  unfold detect_pair
  exact List.mem_append_left _ (List.mem_append_left _
    (List.mem_append_right _ h))

/-- C5: over a card list with pairwise distinct ids, a MANA_ENABLES
interaction from `s` to `t` is emitted exactly when `s` produces mana and
`t` is a non-land card of numeric cost at least 4, and every such emitted
interaction has weight `min (0.4 + t.cmc * 0.05) 0.8`. -/
theorem C5_mana_enables (cards : List Card) (s t : Card)
    (hd : cards.Pairwise (fun x y => x.id ≠ y.id))
    (hs : s ∈ cards) (ht : t ∈ cards) (hne : s.id ≠ t.id) :
    ((s.produces_mana = true ∧ t.is_land = false ∧ 4 ≤ t.cmc) ↔
      ∃ i ∈ detect_all cards, i.interaction_type = .mana_enables ∧
        i.source_id = s.id ∧ i.target_id = t.id) ∧
    (∀ i ∈ detect_all cards, i.interaction_type = .mana_enables →
      i.source_id = s.id → i.target_id = t.id →
      i.weight = min (0.4 + t.cmc * 0.05) 0.8) := by
  have key : ∀ i ∈ detect_all cards, i.interaction_type = .mana_enables →
      i.source_id = s.id → i.target_id = t.id →
      i = meI s t ∧ s.produces_mana = true ∧ t.is_land = false ∧ 4 ≤ t.cmc := by
    intro i hi hME hsrc htgt
    rcases detect_all_mem hi with ⟨c1, c2, l1, l2, l3, heq, hip⟩
    have hc1 : c1 ∈ cards := by subst heq; simp
    have hc2 : c2 ∈ cards := by subst heq; simp
    have hiME := detect_pair_ME c1 c2 i hip hME
    rcases (check_mana_mem c1 c2 i).mp hiME with ⟨h1, h2, h3, rfl⟩ |
      ⟨h1, h2, h3, rfl⟩
    · have hc1s : c1 = s := id_inj hd hc1 hs hsrc
      have hc2t : c2 = t := id_inj hd hc2 ht htgt
      subst hc1s
      subst hc2t
      exact ⟨rfl, h1, h2, h3⟩
    · have hc2s : c2 = s := id_inj hd hc2 hs hsrc
      have hc1t : c1 = t := id_inj hd hc1 ht htgt
      subst hc2s
      subst hc1t
      exact ⟨rfl, h1, h2, h3⟩
  constructor
  · constructor
    · rintro ⟨h1, h2, h3⟩
      rcases mem_mem_decomp hs ht hne with ⟨l1, l2, l3, rfl⟩ | ⟨l1, l2, l3, rfl⟩
      · exact ⟨meI s t, detect_pair_sub l1 s l2 t l3 _
          (mana_sub_pair s t _
            ((check_mana_mem s t (meI s t)).mpr (Or.inl ⟨h1, h2, h3, rfl⟩))),
          rfl, rfl, rfl⟩
      · exact ⟨meI s t, detect_pair_sub l1 t l2 s l3 _
          (mana_sub_pair t s _
            ((check_mana_mem t s (meI s t)).mpr (Or.inr ⟨h1, h2, h3, rfl⟩))),
          rfl, rfl, rfl⟩
    · rintro ⟨i, hi, hME, hsrc, htgt⟩
      exact (key i hi hME hsrc htgt).2
  · intro i hi hME hsrc htgt
    rw [(key i hi hME hsrc htgt).1]
    rfl

/-- Witness for C5 at a concrete land plus expensive sorcery. -/
theorem C5_mana_enables_witness :
    ((cardLand.produces_mana = true ∧ cardBig.is_land = false ∧
        4 ≤ cardBig.cmc) ↔
      ∃ i ∈ detect_all [cardLand, cardBig],
        i.interaction_type = .mana_enables ∧
        i.source_id = cardLand.id ∧ i.target_id = cardBig.id) ∧
    (∀ i ∈ detect_all [cardLand, cardBig],
      i.interaction_type = .mana_enables → i.source_id = cardLand.id →
      i.target_id = cardBig.id →
      i.weight = min (0.4 + cardBig.cmc * 0.05) 0.8) :=
  C5_mana_enables [cardLand, cardBig] cardLand cardBig (by decide)
    (by simp) (by simp) (by decide)
